import Mathlib

/-!
Verification development for the Prospector game server
(`prospector/server/server.py`, class `GameServer`).

The embedding models one game session together with the cross-session
player-statistics directory, exactly following the Python source:

* `Cell`, grids as `List (List Cell)` indexed `grid[y][x]` as in the source;
* the operations `create_game`, `join_game`, `place_fence`,
  `handle_player_disconnect` (the state-transition semantics of leaving,
  reached through the client-disconnect cleanup path), the firing of one
  inactivity timeout from `check_inactivity`, and the helpers
  `initialize_grid`, `check_land_enclosed`, `check_game_over`, `end_game`;
* wall-clock fields (`created_at`, `last_activity`, `turn_start_time`,
  `turn_time_limit`) and the move recordings are omitted: no claim below
  depends on them, and the timeout condition is modelled by letting the
  timeout transition fire nondeterministically whenever the sweep would
  be allowed to act on the session;
* Python dictionaries keyed by player id (`self.players`) are modelled as
  functions `String → Option Stats`;
* list indexing `players[i]` is modelled with `List.getD` and a junk
  default; the reachable-state invariant proved below shows the index is
  always in range, so the default is never consulted on reachable states;
* the random choice of land types in `initialize_grid` is modelled by an
  arbitrary assignment function `Nat → Nat → String` supplied by the
  environment; the value is derived from the type exactly as the source
  derives it.

A ghost field `used` records every connection-scoped player id that has
ever been granted a seat.  Player ids are fresh UUIDs generated per
connection (`handle_client`), so a `create_game`/`join_game` request never
reuses an id: the transition relation states this freshness as a side
condition on those two transitions and `used` lets the invariant speak
about retired ids.  The `used` field influences no operation result.
-/

namespace Prospector

/-- One grid cell, mirroring the dict built by `initialize_grid`:
four fence booleans, an optional owner id, a land type string and the
point value derived from it. -/
structure Cell where
  north : Bool
  east : Bool
  south : Bool
  west : Bool
  owner : Option String
  landType : String
  value : Nat
deriving Repr, DecidableEq

/-- The all-false unfenced regular cell, used as the out-of-range default
for total grid indexing. -/
def defaultCell : Cell :=
  { north := false, east := false, south := false, west := false,
    owner := none, landType := "regular", value := 1 }

/-- Grid cell lookup `grid[y][x]`, total with `defaultCell` out of range. -/
def getCell (grid : List (List Cell)) (x y : Nat) : Cell :=
  (grid.getD y []).getD x defaultCell

/-- Grid cell update `grid[y][x] = c` (no effect out of range, matching
`List.set`). -/
def setCell (grid : List (List Cell)) (x y : Nat) (c : Cell) : List (List Cell) :=
  grid.set y ((grid.getD y []).set x c)

/-- Reading the fence flag named by an orientation string: `cell[orientation]`. -/
def Cell.getFence (c : Cell) (o : String) : Bool :=
  if o = "north" then c.north
  else if o = "east" then c.east
  else if o = "south" then c.south
  else if o = "west" then c.west
  else false

/-- Setting the fence flag named by an orientation string: `cell[orientation] = True`. -/
def Cell.setFence (c : Cell) (o : String) : Cell :=
  if o = "north" then { c with north := true }
  else if o = "east" then { c with east := true }
  else if o = "south" then { c with south := true }
  else if o = "west" then { c with west := true }
  else c

/-- A seated player: connection-scoped id, display name, running score. -/
structure Player where
  id : String
  name : String
  score : Nat
deriving Repr, DecidableEq

/-- Junk player consulted only for out-of-range `players[i]`. -/
def noPlayer : Player := { id := "", name := "", score := 0 }

/-- One game session's state, mirroring the `game_state` dict of
`create_game` (timestamps and the timer constant omitted, see header). -/
structure Game where
  grid_size : Nat
  num_players : Nat
  players : List Player
  current_player_index : Nat
  grid : List (List Cell)
  game_over : Bool
  winner : Option String
deriving Repr, DecidableEq

/-- A player-directory entry of `self.players`: display name and the
win/loss/draw tallies. -/
structure Stats where
  name : String
  wins : Nat
  losses : Nat
  draws : Nat
deriving Repr, DecidableEq

/-- The player directory `self.players`, keyed by player id. -/
def Dir : Type := String → Option Stats

/-- Dictionary update `d[k] = v`. -/
def dirSet (d : Dir) (k : String) (v : Stats) : Dir :=
  fun q => if q = k then some v else d q

/-- The server state restricted to one session: the session slot
(`none` when the session does not exist or has been deleted), the player
directory, and the ghost list of ids ever seated (see header). -/
structure ServerState where
  game : Option Game
  dir : Dir
  used : List String

/-- A response: status, message, and the `land_claimed` flag carried by
successful `place_fence` responses (`false` elsewhere). -/
structure Resp where
  status : String
  message : String
  land_claimed : Bool
deriving Repr, DecidableEq

/-- Shorthand for error responses. -/
def errResp (msg : String) : Resp := { status := "error", message := msg, land_claimed := false }

/-- `GameServer.initialize_grid`: a size × size grid with no fences and no
owners; the land type of each cell comes from the environment-supplied
assignment `land` (modelling `random.choices`) and the value is derived
from the type exactly as in the source (copper 2, gold 3, else 1). -/
def initialize_grid (size : Nat) (land : Nat → Nat → String) : List (List Cell) :=
  (List.range size).map (fun y =>
    (List.range size).map (fun x =>
      let t := land x y
      { north := false, east := false, south := false, west := false,
        owner := none, landType := t,
        value := if t = "copper" then 2 else if t = "gold" then 3 else 1 }))

/-- `GameServer.create_game` (state-relevant part): validate the grid size
and player count, build the fresh game with the creator seated, and add a
directory entry for the creator when absent. -/
def create_game (s : ServerState) (player_id player_name : String)
    (grid_size num_players : Int) (land : Nat → Nat → String) : Resp × ServerState :=
  if grid_size < 2 ∨ 10 < grid_size then
    (errResp "Invalid grid size (2-10)", s)
  else if num_players < 2 ∨ 4 < num_players then
    (errResp "Invalid number of players (2-4)", s)
  else
    let g : Game :=
      { grid_size := grid_size.toNat, num_players := num_players.toNat,
        players := [{ id := player_id, name := player_name, score := 0 }],
        current_player_index := 0,
        grid := initialize_grid grid_size.toNat land,
        game_over := false, winner := none }
    let d := if (s.dir player_id).isSome then s.dir
             else dirSet s.dir player_id { name := player_name, wins := 0, losses := 0, draws := 0 }
    ({ status := "success", message := "Game created successfully", land_claimed := false },
     { game := some g, dir := d, used := player_id :: s.used })

/-- `GameServer.join_game`: reject unknown sessions, full games and
duplicate seats; otherwise append the player and add a directory entry
when absent. -/
def join_game (s : ServerState) (player_id player_name : String) : Resp × ServerState :=
  match s.game with
  | none => (errResp "Invalid game ID", s)
  | some g =>
    if g.num_players ≤ g.players.length then
      (errResp "Game is full", s)
    else if g.players.any (fun p => p.id = player_id) then
      (errResp "Player already in game", s)
    else
      let g2 := { g with players := g.players ++ [{ id := player_id, name := player_name, score := 0 }] }
      let d := if (s.dir player_id).isSome then s.dir
               else dirSet s.dir player_id { name := player_name, wins := 0, losses := 0, draws := 0 }
      ({ status := "success", message := "Game joined successfully", land_claimed := false },
       { game := some g2, dir := d, used := player_id :: s.used })

/-- The grid mutation of `place_fence`: set the named fence on `(x, y)`
and, when a neighbor exists on that side, the mirrored fence on the
neighbor, following the four `elif` branches of the source. -/
def placeFenceGrid (grid : List (List Cell)) (size : Nat) (x y : Nat) (o : String) :
    List (List Cell) :=
  let g1 := setCell grid x y ((getCell grid x y).setFence o)
  if o = "north" ∧ 0 < y then
    setCell g1 x (y - 1) ((getCell g1 x (y - 1)).setFence "south")
  else if o = "east" ∧ x < size - 1 then
    setCell g1 (x + 1) y ((getCell g1 (x + 1) y).setFence "west")
  else if o = "south" ∧ y < size - 1 then
    setCell g1 x (y + 1) ((getCell g1 x (y + 1)).setFence "north")
  else if o = "west" ∧ 0 < x then
    setCell g1 (x - 1) y ((getCell g1 (x - 1) y).setFence "east")
  else
    g1

/-- `GameServer.check_land_enclosed`: all four fences set and no owner. -/
def check_land_enclosed (grid : List (List Cell)) (x y : Nat) : Bool :=
  let cell := getCell grid x y
  cell.north && cell.east && cell.south && cell.west && cell.owner.isNone

/-- `GameServer.check_game_over`: every cell of the grid has all four
fences set (ownership is not consulted). -/
def check_game_over (g : Game) : Bool :=
  g.grid.all (fun row => row.all (fun c => c.north && c.east && c.south && c.west))

/-- `max(p["score"] for p in game["players"])` over the seated players. -/
def max_score (ps : List Player) : Nat :=
  (ps.map Player.score).foldl Nat.max 0

/-- Increment the wins counter of an id present in the directory
(`if player_id in self.players: ... ["wins"] += 1`). -/
def recordWin (d : Dir) (pid : String) : Dir :=
  match d pid with
  | some st => dirSet d pid { st with wins := st.wins + 1 }
  | none => d

/-- Increment the losses counter of an id present in the directory. -/
def recordLoss (d : Dir) (pid : String) : Dir :=
  match d pid with
  | some st => dirSet d pid { st with losses := st.losses + 1 }
  | none => d

/-- Increment the draws counter of an id present in the directory. -/
def recordDraw (d : Dir) (pid : String) : Dir :=
  match d pid with
  | some st => dirSet d pid { st with draws := st.draws + 1 }
  | none => d

/-- `GameServer.end_game`: mark the game over, compute the winners as the
seated players attaining the maximum score, set `winner` to the unique
winner's id or to `"draw"`, and update the directory tallies accordingly. -/
def end_game (g : Game) (d : Dir) : Game × Dir :=
  let m := max_score g.players
  let winners := (g.players.filter (fun p => p.score = m)).map Player.id
  if winners.length = 1 then
    let winner_id := winners.headD ""
    ({ g with game_over := true, winner := some winner_id },
     g.players.foldl (fun acc p =>
       if p.id = winner_id then recordWin acc p.id else recordLoss acc p.id) d)
  else
    ({ g with game_over := true, winner := some "draw" },
     g.players.foldl (fun acc p => recordDraw acc p.id) d)

/-- The post-validation mutation of `place_fence` on a game known to the
registry, at in-range coordinates with a valid orientation whose fence is
absent: place the fence (with the mirrored neighbor fence), detect
enclosure at the placed cell, credit the claiming player and keep the
turn on a claim, otherwise advance the turn, and finally run `end_game`
when `check_game_over` holds. Returns the new game, the new directory
and the `land_claimed` flag. -/
def apply_fence (g : Game) (d : Dir) (x y : Nat) (o : String) : Game × Dir × Bool :=
  let current_player := g.players.getD g.current_player_index noPlayer
  let grid1 := placeFenceGrid g.grid g.grid_size x y o
  let claimed := check_land_enclosed grid1 x y
  let grid2 := if claimed then
      setCell grid1 x y { getCell grid1 x y with owner := some current_player.id }
    else grid1
  let players1 := if claimed then
      g.players.set g.current_player_index
        { current_player with score := current_player.score + (getCell grid1 x y).value }
    else g.players
  let idx1 := if claimed then g.current_player_index
    else (g.current_player_index + 1) % g.players.length
  let g1 : Game := { g with grid := grid2, players := players1, current_player_index := idx1 }
  if check_game_over g1 then
    let (g2, d2) := end_game g1 d
    (g2, d2, claimed)
  else
    (g1, d, claimed)

/-- `GameServer.place_fence`: the full validation chain of the source in
order (unknown game, turn ownership, game over, missing coordinates,
bounds, orientation, fence present), then the mutation `apply_fence`. -/
def place_fence (s : ServerState) (player_id : String) (px py : Option Int)
    (orientation : String) : Resp × ServerState :=
  match s.game with
  | none => (errResp "Invalid game ID", s)
  | some g =>
    if (g.players.getD g.current_player_index noPlayer).id ≠ player_id then
      (errResp "Not your turn", s)
    else if g.game_over then
      (errResp "Game is over", s)
    else
      match px, py with
      | none, _ => (errResp "Invalid position", s)
      | _, none => (errResp "Invalid position", s)
      | some xi, some yi =>
        if xi < 0 ∨ (g.grid_size : Int) ≤ xi ∨ yi < 0 ∨ (g.grid_size : Int) ≤ yi then
          (errResp "Position out of bounds", s)
        else if ¬(orientation = "north" ∨ orientation = "east" ∨
                  orientation = "south" ∨ orientation = "west") then
          (errResp "Invalid orientation", s)
        else if (getCell g.grid xi.toNat yi.toNat).getFence orientation then
          (errResp "Fence already exists", s)
        else
          let r := apply_fence g s.dir xi.toNat yi.toNat orientation
          ({ status := "success", message := "Fence placed successfully", land_claimed := r.2.2 },
           { game := some r.1, dir := r.2.1, used := s.used })

/-- The Python loop locating a player by id in the roster
(first index with a matching id, as `enumerate` + `break`). -/
def findPlayerIdx (players : List Player) (pid : String) : Option Nat :=
  match players with
  | [] => none
  | p :: rest => if p.id = pid then some 0 else (findPlayerIdx rest pid).map (fun i => i + 1)

/-- `GameServer.handle_player_disconnect` (state-transition semantics):
unknown game and unseated player are errors; a session with at most one
seat is deleted outright; otherwise every remaining player present in the
directory is credited a win, the leaver a loss, the seat is removed, an
out-of-range turn index is wrapped to 0, and a session left with exactly
one seat is forced over with that player as winner. -/
def handle_player_disconnect (s : ServerState) (player_id : String) : Resp × ServerState :=
  match s.game with
  | none => (errResp "Game not found", s)
  | some g =>
    match findPlayerIdx g.players player_id with
    | none => (errResp "Player not in game", s)
    | some player_index =>
      if g.players.length ≤ 1 then
        ({ status := "success", message := "Game removed", land_claimed := false },
         { game := none, dir := s.dir, used := s.used })
      else
        let d1 := g.players.foldl (fun acc p =>
          if p.id ≠ player_id then recordWin acc p.id else acc) s.dir
        let d2 := recordLoss d1 player_id
        let players1 := g.players.eraseIdx player_index
        let idx1 := if players1.length ≤ g.current_player_index then 0 else g.current_player_index
        let over1 := players1.length = 1
        let g2 : Game := { g with
          players := players1,
          current_player_index := idx1,
          game_over := if over1 then true else g.game_over,
          winner := if over1 then some (players1.getD 0 noPlayer).id else g.winner }
        ({ status := "success", message := "Player left game", land_claimed := false },
         { game := some g2, dir := d2, used := s.used })

/-- One firing of the inactivity sweep `check_inactivity` on this session:
sessions that are over are skipped, otherwise the turn is advanced to the
next seated player.  The wall-clock comparison that gates the firing is
modelled as nondeterminism (the sweep may fire whenever the session is
not over). -/
def timeout_advance (s : ServerState) : ServerState :=
  match s.game with
  | none => s
  | some g =>
    if g.game_over then s
    else
      let g2 : Game := { g with current_player_index := (g.current_player_index + 1) % g.players.length }
      { s with game := some g2 }

/-- One transition of the session: any of the five operations fired with
arbitrary request data.  `create` targets an empty slot (a later create
makes a distinct session under a fresh uuid, outside this model) and
`create`/`join` carry the uuid-freshness side condition on player ids
(see header). -/
inductive Step : ServerState → ServerState → Prop where
  | create (s : ServerState) (pid pname : String) (gs np : Int) (land : Nat → Nat → String)
      (hempty : s.game = none) (hfresh : pid ∉ s.used) :
      Step s (create_game s pid pname gs np land).2
  | join (s : ServerState) (pid pname : String) (hfresh : pid ∉ s.used) :
      Step s (join_game s pid pname).2
  | place (s : ServerState) (pid : String) (px py : Option Int) (o : String) :
      Step s (place_fence s pid px py o).2
  | leave (s : ServerState) (pid : String) :
      Step s (handle_player_disconnect s pid).2
  | timeout (s : ServerState) :
      Step s (timeout_advance s)

/-- The initial server state: no session, empty directory. -/
def initState : ServerState := { game := none, dir := fun _ => none, used := [] }

/-- States of the session reachable from server start by any sequence of
operations. -/
inductive Reachable : ServerState → Prop where
  | init : Reachable initState
  | step {s t : ServerState} : Reachable s → Step s t → Reachable t

/-- Value contributed by one cell to the holdings of player `pid`. -/
def cellContrib (pid : String) (c : Cell) : Nat :=
  if c.owner = some pid then c.value else 0

/-- Total point value of the cells owned by `pid` in a row. -/
def rowOwned (pid : String) (row : List Cell) : Nat :=
  (row.map (cellContrib pid)).sum

/-- Total point value of the cells owned by `pid` in the grid. -/
def ownedValue (grid : List (List Cell)) (pid : String) : Nat :=
  (grid.map (rowOwned pid)).sum

/-- Value contributed by one cell to the holdings of the listed ids. -/
def seatContrib (ids : List String) (c : Cell) : Nat :=
  match c.owner with
  | some o => if o ∈ ids then c.value else 0
  | none => 0

/-- Total point value of the cells whose owner is among `ids`. -/
def ownedBySeated (grid : List (List Cell)) (ids : List String) : Nat :=
  (grid.map (fun row => (row.map (seatContrib ids)).sum)).sum

/-- Total point value of all cells whose owner is set, whether or not the
owner is still seated. -/
def ownedTotal (grid : List (List Cell)) : Nat :=
  (grid.map (fun row => (row.map (fun c => if c.owner.isSome then c.value else 0)).sum)).sum

/-!
Lock model for the wire `leave_game` handler.  `GameServer.__init__`
creates `self.lock = threading.Lock()`, which is not reentrant: a thread
that acquires it while already holding it blocks forever.  `none` models
a call that never returns.
-/

/-- Run `body` under `with self.lock:` given whether the calling thread
already holds the lock; acquiring a lock one already holds never
returns. -/
def withLock (held : Bool) (body : Bool → Option α) : Option α :=
  if held then none else body true

/-- `GameServer.handle_player_disconnect` as written, including its own
`with self.lock:` block (the body is the pure transition modelled by
`handle_player_disconnect`). -/
def handle_player_disconnect_wire (held : Bool) (s : ServerState) (pid : String) :
    Option (Resp × ServerState) :=
  withLock held (fun _ => some (handle_player_disconnect s pid))

/-- The wire operation `GameServer.leave_game`: acquire `self.lock`, fail
for an unknown game id, otherwise delegate to
`handle_player_disconnect` — which acquires the same lock again. -/
def leave_game_wire (held : Bool) (s : ServerState) (pid : String) :
    Option (Resp × ServerState) :=
  withLock held (fun held2 =>
    match s.game with
    | none => some (errResp "Invalid game ID", s)
    | some _ => handle_player_disconnect_wire held2 s pid)

/-!
Concrete executions used by counterexamples and witnesses.  All use a
2 × 2 grid whose land assignment makes every cell regular (value 1).
Family A: a two-player session (P1 creates, P2 joins).
Family B: a session created with capacity 3 and all three seats taken.
-/

/-- The land assignment making every cell regular. -/
def landAll : Nat → Nat → String := fun _ _ => "regular"

def sA1 : ServerState := (create_game initState "P1" "Alice" 2 2 landAll).2
def sA2 : ServerState := (join_game sA1 "P2" "Bob").2

theorem reach_sA1 : Reachable sA1 :=
  Reachable.step Reachable.init
    (Step.create initState "P1" "Alice" 2 2 landAll rfl (by decide))

theorem reach_sA2 : Reachable sA2 :=
  Reachable.step reach_sA1 (Step.join sA1 "P2" "Bob" (by decide))

/-- Family A, branch 1: the four moves
P1 (0,0) north, P2 (0,0) west, P1 (0,0) south, P2 (1,0) west.
The last move's mirrored update sets the east fence of (0,0). -/
def sA3 : ServerState := (place_fence sA2 "P1" (some 0) (some 0) "north").2
def sA4 : ServerState := (place_fence sA3 "P2" (some 0) (some 0) "west").2
def sA5 : ServerState := (place_fence sA4 "P1" (some 0) (some 0) "south").2
def sA6 : ServerState := (place_fence sA5 "P2" (some 1) (some 0) "west").2

theorem reach_sA3 : Reachable sA3 :=
  Reachable.step reach_sA2 (Step.place sA2 "P1" (some 0) (some 0) "north")

theorem reach_sA6 : Reachable sA6 :=
  Reachable.step
    (Reachable.step
      (Reachable.step reach_sA3 (Step.place sA3 "P2" (some 0) (some 0) "west"))
      (Step.place sA4 "P1" (some 0) (some 0) "south"))
    (Step.place sA5 "P2" (some 1) (some 0) "west")

/-- Family A, branch 2: P1 builds the four fences of (0,0) with P2 placing
elsewhere in between, so P1's fourth fence claims (0,0); then P1 leaves. -/
def sB3 : ServerState := (place_fence sA2 "P1" (some 0) (some 0) "north").2
def sB4 : ServerState := (place_fence sB3 "P2" (some 1) (some 1) "south").2
def sB5 : ServerState := (place_fence sB4 "P1" (some 0) (some 0) "west").2
def sB6 : ServerState := (place_fence sB5 "P2" (some 1) (some 1) "east").2
def sB7 : ServerState := (place_fence sB6 "P1" (some 0) (some 0) "south").2
def sB8 : ServerState := (place_fence sB7 "P2" (some 1) (some 1) "north").2
def sB9 : ServerState := (place_fence sB8 "P1" (some 0) (some 0) "east").2
def sB10 : ServerState := (handle_player_disconnect sB9 "P1").2

theorem reach_sB8 : Reachable sB8 :=
  Reachable.step
    (Reachable.step
      (Reachable.step
        (Reachable.step
          (Reachable.step
            (Reachable.step reach_sA2 (Step.place sA2 "P1" (some 0) (some 0) "north"))
            (Step.place sB3 "P2" (some 1) (some 1) "south"))
          (Step.place sB4 "P1" (some 0) (some 0) "west"))
        (Step.place sB5 "P2" (some 1) (some 1) "east"))
      (Step.place sB6 "P1" (some 0) (some 0) "south"))
    (Step.place sB7 "P2" (some 1) (some 1) "north")

theorem reach_sB9 : Reachable sB9 :=
  Reachable.step reach_sB8 (Step.place sB8 "P1" (some 0) (some 0) "east")

theorem reach_sB10 : Reachable sB10 :=
  Reachable.step reach_sB9 (Step.leave sB9 "P1")

/-- Family B: capacity-3 session with P1, P2, P3 seated, then P1 and P2
leave in turn. -/
def sC1 : ServerState := (create_game initState "P1" "Alice" 2 3 landAll).2
def sC2 : ServerState := (join_game sC1 "P2" "Bob").2
def sC3 : ServerState := (join_game sC2 "P3" "Carol").2
def sC4 : ServerState := (handle_player_disconnect sC3 "P1").2
def sC5 : ServerState := (handle_player_disconnect sC4 "P2").2

theorem reach_sC2 : Reachable sC2 :=
  Reachable.step
    (Reachable.step Reachable.init
      (Step.create initState "P1" "Alice" 2 3 landAll rfl (by decide)))
    (Step.join sC1 "P2" "Bob" (by decide))

theorem reach_sC5 : Reachable sC5 :=
  Reachable.step
    (Reachable.step
      (Reachable.step reach_sC2 (Step.join sC2 "P3" "Carol" (by decide)))
      (Step.leave sC3 "P1"))
    (Step.leave sC4 "P2")

/-- C1 counterexample.  The claim says no cell ever carries all four
fences with its owner absent, because enclosure detection allegedly also
covers the neighbor completed by the mirrored fence.  In the reachable
state `sA6` — after P1 (0,0) north, P2 (0,0) west, P1 (0,0) south,
P2 (1,0) west on a 2 × 2 board — the mirrored update of the last move set
the east fence of (0,0), so cell (0,0) holds all four fences and no
owner: `check_land_enclosed` was only ever evaluated at the placed cells,
never at the completed neighbor. -/
theorem c1_counterexample :
    Reachable sA6 ∧
    ∃ g, sA6.game = some g ∧
      (getCell g.grid 0 0).north = true ∧ (getCell g.grid 0 0).east = true ∧
      (getCell g.grid 0 0).south = true ∧ (getCell g.grid 0 0).west = true ∧
      (getCell g.grid 0 0).owner = none :=
  ⟨reach_sA6, ⟨_, rfl, by decide⟩⟩

/-- C2 counterexample.  The claim equates the seated players' total score
with the total value of all owned cells in every reachable state.  In
`sB10`, P1 claimed cell (0,0) (scoring 1) and then left: the session is
still live with P2 seated at score 0, while cell (0,0) is still owned by
the departed P1, so the claimed equation 0 = 1 fails. -/
theorem c2_counterexample :
    Reachable sB10 ∧
    ∃ g, sB10.game = some g ∧
      (g.players.map Player.score).sum = 0 ∧
      ownedTotal g.grid = 1 ∧
      ¬((g.players.map Player.score).sum = ownedTotal g.grid) :=
  ⟨reach_sB10, ⟨_, rfl, by decide, by decide, by decide⟩⟩

/-- C3 counterexample.  The claim says moves are applied and timeouts
advance the turn only in Active sessions (seats = capacity).  Both parts
fail: in `sA1` only the creator is seated (1 of 2), yet the creator's
`place_fence` succeeds and mutates the grid; and in `sC2` (2 of 3 seats
taken, still Joining) a timeout firing advances `current_player_index`
from 0 to 1. -/
theorem c3_counterexample :
    (Reachable sA1 ∧
      ∃ g g2, sA1.game = some g ∧ g.players.length = 1 ∧ g.num_players = 2 ∧
        (place_fence sA1 "P1" (some 0) (some 0) "north").1.status = "success" ∧
        (place_fence sA1 "P1" (some 0) (some 0) "north").2.game = some g2 ∧
        (getCell g2.grid 0 0).north = true ∧ (getCell g.grid 0 0).north = false) ∧
    (Reachable sC2 ∧
      ∃ g g2, sC2.game = some g ∧ g.players.length = 2 ∧ g.num_players = 3 ∧
        g.current_player_index = 0 ∧
        (timeout_advance sC2).game = some g2 ∧ g2.current_player_index = 1) :=
  ⟨⟨reach_sA1, ⟨_, _, rfl, by decide, by decide, by decide, rfl, by decide, by decide⟩⟩,
   ⟨reach_sC2, ⟨_, _, rfl, by decide, by decide, by decide, rfl, by decide⟩⟩⟩

/-- C4 counterexample.  The claim says each seated player's directory
counters receive exactly one single-field increment per session outcome.
In the capacity-3 session of family C, P1's departure already credits P2
and P3 with a win each (and P1 with a loss) while the game continues;
P2's subsequent departure credits P3 with a second win.  P3's `wins`
tally therefore rises by 2 within one session. -/
theorem c4_counterexample :
    Reachable sC5 ∧
    sC5.dir "P3" = some { name := "Carol", wins := 2, losses := 0, draws := 0 } ∧
    (∃ g, sC5.game = some g ∧ g.game_over = true ∧ g.winner = some "P3") :=
  ⟨reach_sC5, by decide, ⟨_, rfl, by decide, by decide⟩⟩

/-- C9 counterexample.  The claim says a second `place_fence` at the same
(x, y, orientation) always fails with the fence-exists Conflict error.
After P1's successful placement at (0,0,north) the turn passed to P2, so
the very same request resubmitted by P1 is rejected as "Not your turn",
not "Fence already exists". -/
theorem c9_counterexample :
    Reachable sA3 ∧
    (place_fence sA2 "P1" (some 0) (some 0) "north").1.status = "success" ∧
    (place_fence sA3 "P1" (some 0) (some 0) "north").1 = errResp "Not your turn" ∧
    ¬(errResp "Not your turn").message = "Fence already exists" :=
  ⟨reach_sA3, by decide, by decide, by decide⟩

/-- C5.  The claim (and spec §5) requires the leave operation to always
run to completion, idempotently.  The code cannot: `leave_game` enters
`with self.lock:` and then calls `handle_player_disconnect`, whose own
`with self.lock:` re-acquires the same non-reentrant `threading.Lock`,
so for every existing game the wire `leave_game` handler blocks forever
and never produces a response.  (With an unknown game id the inner call
is never reached, which is why the deadlock needs an existing game.) -/
theorem c5_leave_game_deadlocks (s : ServerState) (pid : String) (g : Game)
    (hg : s.game = some g) :
    leave_game_wire false s pid = none ∧
    handle_player_disconnect_wire false s pid = some (handle_player_disconnect s pid) := by
  constructor
  · simp [leave_game_wire, withLock, hg, handle_player_disconnect_wire]
  · simp [handle_player_disconnect_wire, withLock]

/-- C5 witness: in the concrete two-player session `sA2` the wire
`leave_game` for P1 never returns, while the direct disconnect-cleanup
path does. -/
theorem c5_leave_game_deadlocks_witness :
    leave_game_wire false sA2 "P1" = none ∧
    handle_player_disconnect_wire false sA2 "P1" = some (handle_player_disconnect sA2 "P1") :=
  c5_leave_game_deadlocks sA2 "P1" _ rfl


/-- Out-of-turn requests are rejected before any mutation. -/
theorem place_fence_not_your_turn (s : ServerState) (pid : String) (px py : Option Int)
    (o : String) (g : Game) (hg : s.game = some g)
    (hne : (g.players.getD g.current_player_index noPlayer).id ≠ pid) :
    place_fence s pid px py o = (errResp "Not your turn", s) := by
  rw [place_fence, hg]
  dsimp only
  rw [if_pos hne]

/-- When every validation passes, `place_fence` succeeds and the new state
is given by `apply_fence`. -/
theorem place_fence_valid (s : ServerState) (pid : String) (xi yi : Int) (o : String)
    (g : Game) (hg : s.game = some g)
    (hturn : (g.players.getD g.current_player_index noPlayer).id = pid)
    (hover : g.game_over = false)
    (hx0 : 0 ≤ xi) (hx1 : xi < (g.grid_size : Int))
    (hy0 : 0 ≤ yi) (hy1 : yi < (g.grid_size : Int))
    (ho : o = "north" ∨ o = "east" ∨ o = "south" ∨ o = "west")
    (hf : (getCell g.grid xi.toNat yi.toNat).getFence o = false) :
    place_fence s pid (some xi) (some yi) o =
      ({ status := "success", message := "Fence placed successfully",
         land_claimed := (apply_fence g s.dir xi.toNat yi.toNat o).2.2 },
       { game := some (apply_fence g s.dir xi.toNat yi.toNat o).1,
         dir := (apply_fence g s.dir xi.toNat yi.toNat o).2.1, used := s.used }) := by
  rw [place_fence, hg]
  dsimp only
  rw [if_neg (not_not_intro hturn)]
  rw [if_neg (by simp [hover])]
  rw [if_neg (by push_neg; exact ⟨hx0, hx1, hy0, hy1⟩)]
  rw [if_neg (not_not_intro ho)]
  rw [if_neg (by simp [hf])]

/-- A successful `place_fence` pins down every validation condition and
the resulting state. -/
theorem place_fence_success_form (s : ServerState) (pid : String) (px py : Option Int)
    (o : String) (h : (place_fence s pid px py o).1.status = "success") :
    ∃ g xi yi, s.game = some g ∧ px = some xi ∧ py = some yi ∧
      (g.players.getD g.current_player_index noPlayer).id = pid ∧
      g.game_over = false ∧
      0 ≤ xi ∧ xi < (g.grid_size : Int) ∧ 0 ≤ yi ∧ yi < (g.grid_size : Int) ∧
      (o = "north" ∨ o = "east" ∨ o = "south" ∨ o = "west") ∧
      (getCell g.grid xi.toNat yi.toNat).getFence o = false ∧
      place_fence s pid px py o =
        ({ status := "success", message := "Fence placed successfully",
           land_claimed := (apply_fence g s.dir xi.toNat yi.toNat o).2.2 },
         { game := some (apply_fence g s.dir xi.toNat yi.toNat o).1,
           dir := (apply_fence g s.dir xi.toNat yi.toNat o).2.1, used := s.used }) := by
  rcases hsg : s.game with _ | g
  · rw [place_fence, hsg] at h
    simp [errResp] at h
  · rw [place_fence, hsg] at h
    dsimp only at h
    by_cases hne : (g.players.getD g.current_player_index noPlayer).id ≠ pid
    · rw [if_pos hne] at h
      simp [errResp] at h
    · push_neg at hne
      rw [if_neg (not_not_intro hne)] at h
      by_cases hov : g.game_over = true
      · rw [if_pos hov] at h
        simp [errResp] at h
      · rw [if_neg hov] at h
        have hov2 : g.game_over = false := by
          revert hov
          cases g.game_over <;> simp
        rcases px with _ | xi
        · simp [errResp] at h
        · rcases py with _ | yi
          · simp [errResp] at h
          · dsimp only at h
            by_cases hb : xi < 0 ∨ (g.grid_size : Int) ≤ xi ∨ yi < 0 ∨ (g.grid_size : Int) ≤ yi
            · rw [if_pos hb] at h
              simp [errResp] at h
            · rw [if_neg hb] at h
              push_neg at hb
              obtain ⟨hx0, hx1, hy0, hy1⟩ := hb
              by_cases hor : o = "north" ∨ o = "east" ∨ o = "south" ∨ o = "west"
              · rw [if_neg (not_not_intro hor)] at h
                by_cases hfc : (getCell g.grid xi.toNat yi.toNat).getFence o = true
                · rw [if_pos hfc] at h
                  simp [errResp] at h
                · rw [if_neg hfc] at h
                  have hf : (getCell g.grid xi.toNat yi.toNat).getFence o = false := by
                    revert hfc
                    cases (getCell g.grid xi.toNat yi.toNat).getFence o <;> simp
                  exact ⟨g, xi, yi, rfl, rfl, rfl, hne, hov2, hx0, hx1, hy0, hy1, hor, hf,
                    place_fence_valid s pid xi yi o g hsg hne hov2 hx0 hx1 hy0 hy1 hor hf⟩
              · rw [if_pos hor] at h
                simp [errResp] at h


/-- `end_game` changes only `game_over`, `winner` and the directory. -/
theorem end_game_preserves (g : Game) (d : Dir) :
    (end_game g d).1.players = g.players ∧
    (end_game g d).1.current_player_index = g.current_player_index ∧
    (end_game g d).1.grid = g.grid ∧
    (end_game g d).1.grid_size = g.grid_size ∧
    (end_game g d).1.num_players = g.num_players ∧
    (end_game g d).1.game_over = true := by
  unfold end_game
  dsimp only
  split <;> simp

/-- The intermediate game built by `apply_fence` before the game-over check. -/
def fenceStep (g : Game) (x y : Nat) (o : String) : Game :=
  let cp := g.players.getD g.current_player_index noPlayer
  let grid1 := placeFenceGrid g.grid g.grid_size x y o
  let claimed := check_land_enclosed grid1 x y
  { g with
    grid := if claimed then setCell grid1 x y { getCell grid1 x y with owner := some cp.id } else grid1,
    players := if claimed then
        g.players.set g.current_player_index
          { cp with score := cp.score + (getCell grid1 x y).value }
      else g.players,
    current_player_index := if claimed then g.current_player_index
      else (g.current_player_index + 1) % g.players.length }

/-- `apply_fence` is `fenceStep` followed by `end_game` when
`check_game_over` holds. -/
theorem apply_fence_eq (g : Game) (d : Dir) (x y : Nat) (o : String) :
    apply_fence g d x y o =
      (if check_game_over (fenceStep g x y o) then
        ((end_game (fenceStep g x y o) d).1, (end_game (fenceStep g x y o) d).2,
          check_land_enclosed (placeFenceGrid g.grid g.grid_size x y o) x y)
      else (fenceStep g x y o, d,
          check_land_enclosed (placeFenceGrid g.grid g.grid_size x y o) x y)) := by
  rfl

theorem fenceStep_claimed_idx (g : Game) (x y : Nat) (o : String)
    (h : check_land_enclosed (placeFenceGrid g.grid g.grid_size x y o) x y = true) :
    (fenceStep g x y o).current_player_index = g.current_player_index ∧
    (fenceStep g x y o).players.length = g.players.length := by
  unfold fenceStep
  simp [h]

theorem fenceStep_unclaimed_idx (g : Game) (x y : Nat) (o : String)
    (h : check_land_enclosed (placeFenceGrid g.grid g.grid_size x y o) x y = false) :
    (fenceStep g x y o).current_player_index = (g.current_player_index + 1) % g.players.length ∧
    (fenceStep g x y o).players.length = g.players.length ∧
    (fenceStep g x y o).grid = placeFenceGrid g.grid g.grid_size x y o := by
  unfold fenceStep
  simp [h]

/-- The claim flag returned by `apply_fence`. -/
theorem apply_fence_claimed (g : Game) (d : Dir) (x y : Nat) (o : String) :
    (apply_fence g d x y o).2.2 =
      check_land_enclosed (placeFenceGrid g.grid g.grid_size x y o) x y := by
  rw [apply_fence_eq]
  split <;> rfl

/-- The turn pointer and roster length produced by `apply_fence`. -/
theorem apply_fence_idx (g : Game) (d : Dir) (x y : Nat) (o : String) :
    ((apply_fence g d x y o).2.2 = true →
      (apply_fence g d x y o).1.current_player_index = g.current_player_index) ∧
    ((apply_fence g d x y o).2.2 = false →
      (apply_fence g d x y o).1.current_player_index =
        (g.current_player_index + 1) % g.players.length) ∧
    (apply_fence g d x y o).1.players.length = g.players.length := by
  rw [apply_fence_eq]
  by_cases hc : check_land_enclosed (placeFenceGrid g.grid g.grid_size x y o) x y = true
  · by_cases hgo : check_game_over (fenceStep g x y o) = true
    · simp only [hgo, if_true]
      obtain ⟨hp, hi, -⟩ := end_game_preserves (fenceStep g x y o) d
      obtain ⟨hi2, hl2⟩ := fenceStep_claimed_idx g x y o hc
      refine ⟨fun _ => ?_, fun hcf => ?_, ?_⟩
      · rw [hi, hi2]
      · rw [hc] at hcf
        exact absurd hcf (by simp)
      · rw [hp, hl2]
    · simp only [hgo, if_false]
      obtain ⟨hi2, hl2⟩ := fenceStep_claimed_idx g x y o hc
      refine ⟨fun _ => hi2, fun hcf => ?_, hl2⟩
      rw [hc] at hcf
      exact absurd hcf (by simp)
  · have hc2 : check_land_enclosed (placeFenceGrid g.grid g.grid_size x y o) x y = false := by
      revert hc
      cases check_land_enclosed (placeFenceGrid g.grid g.grid_size x y o) x y <;> simp
    by_cases hgo : check_game_over (fenceStep g x y o) = true
    · simp only [hgo, if_true]
      obtain ⟨hp, hi, -⟩ := end_game_preserves (fenceStep g x y o) d
      obtain ⟨hi2, hl2, -⟩ := fenceStep_unclaimed_idx g x y o hc2
      refine ⟨fun hcf => ?_, fun _ => ?_, ?_⟩
      · rw [hc2] at hcf
        exact absurd hcf (by simp)
      · rw [hi, hi2]
      · rw [hp, hl2]
    · simp only [hgo, if_false]
      obtain ⟨hi2, hl2, -⟩ := fenceStep_unclaimed_idx g x y o hc2
      refine ⟨fun hcf => ?_, fun _ => hi2, hl2⟩
      rw [hc2] at hcf
      exact absurd hcf (by simp)



/-- The winner computed by `end_game`: the unique maximum-score player's
id, or `"draw"` when the maximum is shared. -/
theorem end_game_winner_law (g : Game) (d : Dir) :
    (g.players.countP (fun p => p.score = max_score g.players) = 1 →
      ∃ p, p ∈ g.players ∧ p.score = max_score g.players ∧
        (end_game g d).1.winner = some p.id) ∧
    (2 ≤ g.players.countP (fun p => p.score = max_score g.players) →
      (end_game g d).1.winner = some "draw") := by
  have hcount : g.players.countP (fun p => decide (p.score = max_score g.players)) =
      (g.players.filter (fun p => decide (p.score = max_score g.players))).length :=
    List.countP_eq_length_filter _ _
  constructor
  · intro h1
    rw [hcount] at h1
    obtain ⟨p, hp⟩ := List.length_eq_one.mp h1
    have hpmem : p ∈ g.players.filter (fun p => decide (p.score = max_score g.players)) := by
      rw [hp]
      exact List.mem_singleton_self p
    have hmem := List.mem_of_mem_filter hpmem
    have hpred := List.of_mem_filter hpmem
    refine ⟨p, hmem, by simpa using hpred, ?_⟩
    unfold end_game
    dsimp only
    rw [hp]
    simp
  · intro h2
    rw [hcount] at h2
    unfold end_game
    dsimp only
    rw [if_neg (by simp; omega)]

/-- C6, confirmed.  Every successful move leaves the roster length
unchanged; a non-claiming move advances `current_player_index` by one
modulo the number of seated players, and a claiming move leaves it
unchanged. -/
theorem c6_turn_rotation (s : ServerState) (pid : String) (px py : Option Int) (o : String)
    (g g2 : Game) (hg : s.game = some g)
    (hsucc : (place_fence s pid px py o).1.status = "success")
    (hg2 : (place_fence s pid px py o).2.game = some g2) :
    g2.players.length = g.players.length ∧
    ((place_fence s pid px py o).1.land_claimed = false →
      g2.current_player_index = (g.current_player_index + 1) % g.players.length) ∧
    ((place_fence s pid px py o).1.land_claimed = true →
      g2.current_player_index = g.current_player_index) := by
  obtain ⟨g', xi, yi, hg', hpx, hpy, h1, h2, h3, h4, h5, h6, h7, h8, heq⟩ :=
    place_fence_success_form s pid px py o hsucc
  have hgg : g' = g := by
    rw [hg] at hg'
    exact (Option.some.injEq _ _).mp hg'.symm
  subst hgg
  rw [heq] at hg2
  have hg2eq : g2 = (apply_fence g' s.dir xi.toNat yi.toNat o).1 :=
    (Option.some_inj.mp hg2).symm
  have hlc : (place_fence s pid px py o).1.land_claimed =
      (apply_fence g' s.dir xi.toNat yi.toNat o).2.2 := by
    rw [heq]
  obtain ⟨hci, hcu, hcl⟩ := apply_fence_idx g' s.dir xi.toNat yi.toNat o
  subst hg2eq
  exact ⟨hcl, fun hf => hcu (by rw [hlc] at hf; exact hf),
    fun ht => hci (by rw [hlc] at ht; exact ht)⟩

/-- C6 witness: P1's opening move in the two-player session `sA2` does
not claim, and the turn advances from index 0 to index 1 = (0+1) mod 2. -/
theorem c6_turn_rotation_witness :
    ∃ g g2, sA2.game = some g ∧
      (place_fence sA2 "P1" (some 0) (some 0) "north").2.game = some g2 ∧
      g2.players.length = g.players.length ∧
      ((place_fence sA2 "P1" (some 0) (some 0) "north").1.land_claimed = false →
        g2.current_player_index = (g.current_player_index + 1) % g.players.length) ∧
      ((place_fence sA2 "P1" (some 0) (some 0) "north").1.land_claimed = true →
        g2.current_player_index = g.current_player_index) :=
  ⟨_, _, rfl, rfl, c6_turn_rotation sA2 "P1" (some 0) (some 0) "north" _ _ rfl (by decide) rfl⟩

/-- C7, confirmed.  When a successful move makes the game-over predicate
true, the session is marked over and the winner is the unique
maximum-score player's id, or the sentinel draw under a tie. -/
theorem c7_endgame_resolution (s : ServerState) (pid : String) (px py : Option Int)
    (o : String) (g2 : Game)
    (hsucc : (place_fence s pid px py o).1.status = "success")
    (hg2 : (place_fence s pid px py o).2.game = some g2)
    (hover : check_game_over g2 = true) :
    g2.game_over = true ∧
    (g2.players.countP (fun p => p.score = max_score g2.players) = 1 →
      ∃ p, p ∈ g2.players ∧ p.score = max_score g2.players ∧ g2.winner = some p.id) ∧
    (2 ≤ g2.players.countP (fun p => p.score = max_score g2.players) →
      g2.winner = some "draw") := by
  obtain ⟨g', xi, yi, hg', hpx, hpy, h1, h2, h3, h4, h5, h6, h7, h8, heq⟩ :=
    place_fence_success_form s pid px py o hsucc
  rw [heq] at hg2
  have hg2eq : g2 = (apply_fence g' s.dir xi.toNat yi.toNat o).1 :=
    (Option.some_inj.mp hg2).symm
  rw [apply_fence_eq] at hg2eq
  by_cases hgo : check_game_over (fenceStep g' xi.toNat yi.toNat o) = true
  · rw [if_pos hgo] at hg2eq
    dsimp only at hg2eq
    obtain ⟨hp, hi, hgr, hgs, hnp, hov⟩ := end_game_preserves (fenceStep g' xi.toNat yi.toNat o) s.dir
    obtain ⟨law1, law2⟩ := end_game_winner_law (fenceStep g' xi.toNat yi.toNat o) s.dir
    rw [hg2eq, hp]
    exact ⟨hov, law1, law2⟩
  · rw [if_neg hgo] at hg2eq
    dsimp only at hg2eq
    rw [hg2eq] at hover
    exact absurd hover hgo

/-- C7 witness: a handcrafted 2 × 2 session one fence away from
completion; the current player's placement claims the last cell, the
game ends, and the unique maximum holder P1 is the winner. -/
def winGame : Game :=
  { grid_size := 2, num_players := 2,
    players := [{ id := "P1", name := "Alice", score := 1 },
                { id := "P2", name := "Bob", score := 0 }],
    current_player_index := 0,
    grid := [[{ north := true, east := false, south := true, west := true,
                owner := none, landType := "regular", value := 1 },
              { north := true, east := true, south := true, west := false,
                owner := some "P2", landType := "regular", value := 1 }],
             [{ north := true, east := true, south := true, west := true,
                owner := some "P1", landType := "regular", value := 1 },
              { north := true, east := true, south := true, west := true,
                owner := some "P2", landType := "regular", value := 1 }]],
    game_over := false, winner := none }

def sWin : ServerState := { game := some winGame, dir := fun _ => none, used := [] }

theorem c7_endgame_resolution_witness :
    ∃ g2, (place_fence sWin "P1" (some 0) (some 0) "east").2.game = some g2 ∧
      check_game_over g2 = true ∧
      (g2.game_over = true ∧
       (g2.players.countP (fun p => p.score = max_score g2.players) = 1 →
         ∃ p, p ∈ g2.players ∧ p.score = max_score g2.players ∧ g2.winner = some p.id) ∧
       (2 ≤ g2.players.countP (fun p => p.score = max_score g2.players) →
         g2.winner = some "draw")) :=
  ⟨_, rfl, by decide,
    c7_endgame_resolution sWin "P1" (some 0) (some 0) "east" _ (by decide) rfl (by decide)⟩

/-- C8, confirmed.  A request from any seated player who is not the turn
holder fails with the "Not your turn" error and returns the server state
unchanged: no fence, owner, score or turn pointer is modified. -/
theorem c8_out_of_turn (s : ServerState) (pid : String) (px py : Option Int) (o : String)
    (g : Game) (hg : s.game = some g)
    (hseat : pid ∈ g.players.map Player.id)
    (hne : (g.players.getD g.current_player_index noPlayer).id ≠ pid) :
    place_fence s pid px py o = (errResp "Not your turn", s) :=
  place_fence_not_your_turn s pid px py o g hg hne

/-- C8 witness: in `sA3` the turn belongs to P2, so the seated P1's
request is rejected and the state is returned unchanged. -/
theorem c8_out_of_turn_witness :
    place_fence sA3 "P1" (some 1) (some 1) "north" = (errResp "Not your turn", sA3) :=
  c8_out_of_turn sA3 "P1" (some 1) (some 1) "north" _ rfl (by decide) (by decide)

/-- C3, amended.  Moves are gated only by the session's existence, turn
ownership, the game-over flag and input validity — the seats = capacity
condition of the claim is not enforced, so Joining sessions accept moves;
a timeout advance applies to any existing session that is not over
(including Joining), and it never mutates the grid or the roster (hence
no score). -/
theorem c3_amended (s : ServerState) (g : Game) (hg : s.game = some g) :
    (∀ pid px py o, (place_fence s pid px py o).1.status = "success" →
      g.game_over = false ∧ (g.players.getD g.current_player_index noPlayer).id = pid) ∧
    (∀ xi yi o, 0 ≤ xi → xi < (g.grid_size : Int) → 0 ≤ yi → yi < (g.grid_size : Int) →
      (o = "north" ∨ o = "east" ∨ o = "south" ∨ o = "west") →
      (getCell g.grid xi.toNat yi.toNat).getFence o = false →
      g.game_over = false →
      (place_fence s ((g.players.getD g.current_player_index noPlayer).id)
        (some xi) (some yi) o).1.status = "success") ∧
    (g.game_over = false →
      ∃ g2, (timeout_advance s).game = some g2 ∧
        g2.current_player_index = (g.current_player_index + 1) % g.players.length ∧
        g2.grid = g.grid ∧ g2.players = g.players) ∧
    (g.game_over = true → timeout_advance s = s) := by
  refine ⟨?_, ?_, ?_, ?_⟩
  · intro pid px py o hsucc
    obtain ⟨g', xi, yi, hg', hpx, hpy, hturn, hover, h3, h4, h5, h6, h7, h8, heq⟩ :=
      place_fence_success_form s pid px py o hsucc
    have hgg : g' = g := by
      rw [hg] at hg'
      exact Option.some_inj.mp hg'.symm
    subst hgg
    exact ⟨hover, hturn⟩
  · intro xi yi o hx0 hx1 hy0 hy1 ho hf hov
    rw [place_fence_valid s ((g.players.getD g.current_player_index noPlayer).id)
      xi yi o g hg rfl hov hx0 hx1 hy0 hy1 ho hf]
  · intro hov
    unfold timeout_advance
    rw [hg]
    dsimp only
    rw [if_neg (by simp [hov])]
    exact ⟨_, rfl, rfl, rfl, rfl⟩
  · intro hov
    unfold timeout_advance
    rw [hg]
    dsimp only
    rw [if_pos hov]

/-- The game record of `sA1`: one seat of two taken, still Joining. -/
def sA1game : Game :=
  { grid_size := 2, num_players := 2,
    players := [{ id := "P1", name := "Alice", score := 0 }],
    current_player_index := 0,
    grid := initialize_grid 2 landAll,
    game_over := false, winner := none }

/-- C3 witness: in the Joining one-seat session `sA1` (1 of 2 seats
taken) the creator's valid move succeeds, and a timeout firing advances
the turn pointer without touching grid or roster. -/
theorem c3_amended_witness :
    (∀ pid px py o, (place_fence sA1 pid px py o).1.status = "success" →
      sA1game.game_over = false ∧
      (sA1game.players.getD sA1game.current_player_index noPlayer).id = pid) ∧
    (∀ xi yi o, 0 ≤ xi → xi < (sA1game.grid_size : Int) → 0 ≤ yi →
      yi < (sA1game.grid_size : Int) →
      (o = "north" ∨ o = "east" ∨ o = "south" ∨ o = "west") →
      (getCell sA1game.grid xi.toNat yi.toNat).getFence o = false →
      sA1game.game_over = false →
      (place_fence sA1 ((sA1game.players.getD sA1game.current_player_index noPlayer).id)
        (some xi) (some yi) o).1.status = "success") ∧
    (sA1game.game_over = false →
      ∃ g2, (timeout_advance sA1).game = some g2 ∧
        g2.current_player_index = (sA1game.current_player_index + 1) % sA1game.players.length ∧
        g2.grid = sA1game.grid ∧ g2.players = sA1game.players) ∧
    (sA1game.game_over = true → timeout_advance sA1 = sA1) :=
  c3_amended sA1 sA1game rfl



theorem getD_set_self (l : List α) (i : Nat) (a d : α) (h : i < l.length) :
    (l.set i a).getD i d = a := by
  induction l generalizing i with
  | nil => simp at h
  | cons b t ih =>
    cases i with
    | zero => simp
    | succ j =>
      simp only [List.set_cons_succ, List.getD_cons_succ]
      exact ih j (by simpa using h)

theorem getD_set_ne (l : List α) (i j : Nat) (a d : α) (h : i ≠ j) :
    (l.set i a).getD j d = l.getD j d := by
  induction l generalizing i j with
  | nil => simp [List.getD]
  | cons b t ih =>
    cases i with
    | zero =>
      cases j with
      | zero => exact absurd rfl h
      | succ j2 => simp
    | succ i2 =>
      cases j with
      | zero => simp
      | succ j2 =>
        simp only [List.set_cons_succ, List.getD_cons_succ]
        exact ih i2 j2 (fun he => h (by rw [he]))

theorem sum_map_set (l : List α) (i : Nat) (a d : α) (f : α → Nat) (h : i < l.length) :
    ((l.set i a).map f).sum + f (l.getD i d) = (l.map f).sum + f a := by
  induction l generalizing i with
  | nil => simp at h
  | cons b t ih =>
    cases i with
    | zero => simp [Nat.add_comm, Nat.add_left_comm]
    | succ j =>
      have hj : j < t.length := by simpa using h
      simp only [List.set_cons_succ, List.map_cons, List.sum_cons, List.getD_cons_succ]
      have := ih j hj
      omega

theorem mem_of_getD (l : List α) (i : Nat) (d : α) (h : i < l.length) : l.getD i d ∈ l := by
  induction l generalizing i with
  | nil => simp at h
  | cons b t ih =>
    cases i with
    | zero => simp
    | succ j =>
      simp only [List.getD_cons_succ]
      exact List.mem_cons_of_mem b (ih j (by simpa using h))

theorem exists_getD_of_mem (l : List α) (a d : α) (h : a ∈ l) :
    ∃ i, i < l.length ∧ l.getD i d = a := by
  induction l with
  | nil => simp at h
  | cons b t ih =>
    rcases List.mem_cons.mp h with h1 | h2
    · exact ⟨0, by simp, by simp [h1.symm]⟩
    · obtain ⟨i, hi, he⟩ := ih h2
      exact ⟨i + 1, by simpa using hi, by simpa using he⟩

theorem nodup_map_getD_ne (l : List α) (f : α → β) (hn : (l.map f).Nodup)
    (i j : Nat) (hi : i < l.length) (hj : j < l.length) (hij : i ≠ j) (d : α) :
    f (l.getD i d) ≠ f (l.getD j d) := by
  induction l generalizing i j with
  | nil => simp at hi
  | cons b t ih =>
    simp only [List.map_cons, List.nodup_cons] at hn
    obtain ⟨hnb, hnt⟩ := hn
    cases i with
    | zero =>
      cases j with
      | zero => exact absurd rfl hij
      | succ j2 =>
        simp only [List.getD_cons_zero, List.getD_cons_succ]
        intro he
        exact hnb (he ▸ List.mem_map_of_mem f (mem_of_getD t j2 d (by simpa using hj)))
    | succ i2 =>
      cases j with
      | zero =>
        simp only [List.getD_cons_zero, List.getD_cons_succ]
        intro he
        exact hnb (he ▸ List.mem_map_of_mem f (mem_of_getD t i2 d (by simpa using hi)))
      | succ j2 =>
        simp only [List.getD_cons_succ]
        exact ih hnt i2 j2 (by simpa using hi) (by simpa using hj)
          (fun he => hij (by rw [he]))

theorem getD_append_lt (l1 l2 : List α) (i : Nat) (d : α) (h : i < l1.length) :
    (l1 ++ l2).getD i d = l1.getD i d := by
  induction l1 generalizing i with
  | nil => simp at h
  | cons b t ih =>
    cases i with
    | zero => simp
    | succ j =>
      simp only [List.cons_append, List.getD_cons_succ]
      exact ih j (by simpa using h)

theorem getD_eraseIdx_lt (l : List α) (i j : Nat) (d : α) (h : j < i) :
    (l.eraseIdx i).getD j d = l.getD j d := by
  induction l generalizing i j with
  | nil => simp
  | cons b t ih =>
    cases i with
    | zero => omega
    | succ i2 =>
      cases j with
      | zero => simp
      | succ j2 =>
        simp only [List.eraseIdx_cons_succ, List.getD_cons_succ]
        exact ih i2 j2 (by omega)

theorem set_of_le (l : List α) (i : Nat) (a : α) (h : l.length ≤ i) : l.set i a = l := by
  induction l generalizing i with
  | nil => simp
  | cons b t ih =>
    cases i with
    | zero => simp at h
    | succ j => simp only [List.set_cons_succ, List.cons.injEq, true_and]; exact ih j (by simpa using h)

theorem set_getD_self (l : List α) (i : Nat) (d : α) (h : i < l.length) :
    l.set i (l.getD i d) = l := by
  induction l generalizing i with
  | nil => simp
  | cons b t ih =>
    cases i with
    | zero => simp
    | succ j => simp only [List.getD_cons_succ, List.set_cons_succ, List.cons.injEq, true_and]; exact ih j (by simpa using h)

theorem sum_map_add_fun (l : List α) (f g : α → Nat) :
    (l.map (fun a => f a + g a)).sum = (l.map f).sum + (l.map g).sum := by
  induction l with
  | nil => simp
  | cons b t ih =>
    simp only [List.map_cons, List.sum_cons, ih]
    omega

theorem sum_map_swap (xs : List α) (ys : List β) (f : α → β → Nat) :
    (xs.map (fun x => (ys.map (f x)).sum)).sum =
    (ys.map (fun y => (xs.map (fun x => f x y)).sum)).sum := by
  induction xs with
  | nil => simp
  | cons b t ih =>
    simp only [List.map_cons, List.sum_cons, ih, sum_map_add_fun]

theorem getD_eraseIdx_ge (l : List α) (i j : Nat) (d : α) (h : i ≤ j) :
    (l.eraseIdx i).getD j d = l.getD (j + 1) d := by
  induction l generalizing i j with
  | nil => simp
  | cons b t ih =>
    cases i with
    | zero => simp
    | succ i2 =>
      cases j with
      | zero => omega
      | succ j2 =>
        simp only [List.eraseIdx_cons_succ, List.getD_cons_succ]
        exact ih i2 j2 (by omega)



theorem getCell_setCell_self (grid : List (List Cell)) (x y : Nat) (c : Cell)
    (hy : y < grid.length) (hx : x < (grid.getD y []).length) :
    getCell (setCell grid x y c) x y = c := by
  unfold getCell setCell
  rw [getD_set_self _ _ _ _ hy, getD_set_self _ _ _ _ hx]

theorem getCell_setCell_ne (grid : List (List Cell)) (x y i j : Nat) (c : Cell)
    (h : ¬(i = x ∧ j = y)) :
    getCell (setCell grid x y c) i j = getCell grid i j := by
  unfold getCell setCell
  by_cases hy : y < grid.length
  · by_cases hj : j = y
    · subst hj
      have hix : x ≠ i := fun he => h ⟨he.symm, rfl⟩
      rw [getD_set_self _ _ _ _ hy, getD_set_ne _ _ _ _ _ hix]
    · rw [getD_set_ne _ _ _ _ _ (fun he => hj he.symm)]
  · rw [set_of_le _ _ _ (by omega)]

theorem setCell_out_of_range (grid : List (List Cell)) (x y : Nat) (c : Cell)
    (h : ¬(y < grid.length ∧ x < (grid.getD y []).length)) :
    setCell grid x y c = grid := by
  unfold setCell
  by_cases hy : y < grid.length
  · have hx : (grid.getD y []).length ≤ x := by omega
    rw [set_of_le _ _ _ hx, set_getD_self _ _ _ hy]
  · rw [set_of_le _ _ _ (by omega)]

theorem owner_setFence (c : Cell) (o : String) : (c.setFence o).owner = c.owner := by
  unfold Cell.setFence
  split_ifs <;> rfl

theorem value_setFence (c : Cell) (o : String) : (c.setFence o).value = c.value := by
  unfold Cell.setFence
  split_ifs <;> rfl

theorem cellContrib_setFence (pid : String) (c : Cell) (o : String) :
    cellContrib pid (c.setFence o) = cellContrib pid c := by
  unfold cellContrib
  rw [owner_setFence, value_setFence]

theorem ownedValue_setCell (grid : List (List Cell)) (x y : Nat) (c : Cell) (pid : String)
    (hy : y < grid.length) (hx : x < (grid.getD y []).length) :
    ownedValue (setCell grid x y c) pid + cellContrib pid (getCell grid x y) =
    ownedValue grid pid + cellContrib pid c := by
  unfold ownedValue setCell getCell
  have h1 := sum_map_set grid y ((grid.getD y []).set x c) [] (rowOwned pid) hy
  have h2 := sum_map_set (grid.getD y []) x c defaultCell (cellContrib pid) hx
  unfold rowOwned at h1 h2 ⊢
  omega

theorem ownedValue_setCell_fence (grid : List (List Cell)) (x y : Nat) (o pid : String) :
    ownedValue (setCell grid x y ((getCell grid x y).setFence o)) pid = ownedValue grid pid := by
  by_cases hb : y < grid.length ∧ x < (grid.getD y []).length
  · have := ownedValue_setCell grid x y ((getCell grid x y).setFence o) pid hb.1 hb.2
    rw [cellContrib_setFence] at this
    omega
  · rw [setCell_out_of_range _ _ _ _ hb]

theorem ownedValue_placeFenceGrid (grid : List (List Cell)) (size x y : Nat) (o pid : String) :
    ownedValue (placeFenceGrid grid size x y o) pid = ownedValue grid pid := by
  unfold placeFenceGrid
  split_ifs <;> simp only [ownedValue_setCell_fence]

theorem owner_getCell_setCell_fence (grid : List (List Cell)) (x y i j : Nat) (o : String) :
    (getCell (setCell grid x y ((getCell grid x y).setFence o)) i j).owner =
    (getCell grid i j).owner := by
  by_cases hp : i = x ∧ j = y
  · obtain ⟨rfl, rfl⟩ := hp
    by_cases hb : j < grid.length ∧ i < (grid.getD j []).length
    · rw [getCell_setCell_self _ _ _ _ hb.1 hb.2, owner_setFence]
    · rw [setCell_out_of_range _ _ _ _ hb]
  · rw [getCell_setCell_ne _ _ _ _ _ _ hp]

theorem owner_getCell_placeFenceGrid (grid : List (List Cell)) (size x y i j : Nat) (o : String) :
    (getCell (placeFenceGrid grid size x y o) i j).owner = (getCell grid i j).owner := by
  unfold placeFenceGrid
  split_ifs <;> simp only [owner_getCell_setCell_fence]



/-- The neighbor cell whose mirrored fence the source updates, when the
branch guard (`y > 0` etc.) holds. -/
def neighborPos (size x y : Nat) (o : String) : Option (Nat × Nat) :=
  if o = "north" then (if 0 < y then some (x, y - 1) else none)
  else if o = "east" then (if x < size - 1 then some (x + 1, y) else none)
  else if o = "south" then (if y < size - 1 then some (x, y + 1) else none)
  else if o = "west" then (if 0 < x then some (x - 1, y) else none)
  else none

/-- The opposite orientation, set on the neighbor. -/
def mirrorOf (o : String) : String :=
  if o = "north" then "south"
  else if o = "east" then "west"
  else if o = "south" then "north"
  else if o = "west" then "east"
  else o

theorem setFence_north_eq (c : Cell) : c.setFence "north" = { c with north := true } := rfl

theorem setFence_east_eq (c : Cell) : c.setFence "east" = { c with east := true } := rfl

theorem setFence_south_eq (c : Cell) : c.setFence "south" = { c with south := true } := rfl

theorem setFence_west_eq (c : Cell) : c.setFence "west" = { c with west := true } := rfl

/-- Well-formed dimensions: a square grid of the session's size. -/
def gridDims (grid : List (List Cell)) (size : Nat) : Prop :=
  grid.length = size ∧ ∀ row ∈ grid, row.length = size

theorem gridDims_setCell (grid : List (List Cell)) (size x y : Nat) (c : Cell)
    (h : gridDims grid size) : gridDims (setCell grid x y c) size := by
  by_cases hy : y < grid.length
  · constructor
    · unfold setCell
      rw [List.length_set]
      exact h.1
    · intro row hrow
      rcases List.mem_or_eq_of_mem_set hrow with hmem | heq
      · exact h.2 row hmem
      · subst heq
        rw [List.length_set]
        exact h.2 _ (mem_of_getD _ _ _ hy)
  · unfold setCell
    rw [set_of_le _ _ _ (by omega)]
    exact h

theorem gridDims_placeFenceGrid (grid : List (List Cell)) (size x y : Nat) (o : String)
    (h : gridDims grid size) : gridDims (placeFenceGrid grid size x y o) size := by
  unfold placeFenceGrid
  split_ifs with h1 h2 h3 h4
  · exact gridDims_setCell _ _ _ _ _ (gridDims_setCell _ _ _ _ _ h)
  · exact gridDims_setCell _ _ _ _ _ (gridDims_setCell _ _ _ _ _ h)
  · exact gridDims_setCell _ _ _ _ _ (gridDims_setCell _ _ _ _ _ h)
  · exact gridDims_setCell _ _ _ _ _ (gridDims_setCell _ _ _ _ _ h)
  · exact gridDims_setCell _ _ _ _ _ h

theorem getCell_setCell_self_dims (grid : List (List Cell)) (size x y : Nat) (c : Cell)
    (hd : gridDims grid size) (hx : x < size) (hy : y < size) :
    getCell (setCell grid x y c) x y = c := by
  apply getCell_setCell_self
  · rw [hd.1]
    exact hy
  · rw [hd.2 _ (mem_of_getD _ _ _ (by rw [hd.1]; exact hy))]
    exact hx

/-- Complete description of the grid after the fence mutation of
`place_fence`: the named flag is set on the target, the mirrored flag on
the in-grid neighbor when the source's branch guard holds, and every
other cell is untouched. -/
theorem placeFenceGrid_spec (grid : List (List Cell)) (size x y : Nat) (o : String)
    (hd : gridDims grid size) (hx : x < size) (hy : y < size)
    (ho : o = "north" ∨ o = "east" ∨ o = "south" ∨ o = "west") :
    getCell (placeFenceGrid grid size x y o) x y = (getCell grid x y).setFence o ∧
    (∀ i j, neighborPos size x y o = some (i, j) →
      getCell (placeFenceGrid grid size x y o) i j =
        (getCell grid i j).setFence (mirrorOf o)) ∧
    (∀ i j, ¬(i = x ∧ j = y) → neighborPos size x y o ≠ some (i, j) →
      getCell (placeFenceGrid grid size x y o) i j = getCell grid i j) := by
  have hd1 := gridDims_setCell grid size x y ((getCell grid x y).setFence o) hd
  rcases ho with rfl | rfl | rfl | rfl
  · unfold placeFenceGrid neighborPos
    by_cases hg : 0 < y
    · rw [if_pos ⟨rfl, hg⟩, if_pos rfl, if_pos hg]
      refine ⟨?_, ?_, ?_⟩
      · rw [getCell_setCell_ne _ _ _ _ _ _ (fun hc => by omega),
          getCell_setCell_self_dims _ size _ _ _ hd hx hy]
      · intro i j hij
        obtain ⟨rfl, rfl⟩ : x = i ∧ y - 1 = j := by
          constructor <;> [exact congrArg Prod.fst (Option.some_inj.mp hij);
            exact congrArg Prod.snd (Option.some_inj.mp hij)]
        rw [getCell_setCell_self_dims _ size _ _ _ hd1 hx (by omega),
          getCell_setCell_ne _ _ _ _ _ _ (fun hc => by omega)]
        rfl
      · intro i j hne hnbr
        have hij2 : ¬(i = x ∧ j = y - 1) := fun hc => hnbr (by rw [hc.1, hc.2])
        rw [getCell_setCell_ne _ _ _ _ _ _ hij2, getCell_setCell_ne _ _ _ _ _ _ hne]
    · rw [if_neg (fun hc => hg hc.2), if_neg (fun hc => absurd hc.1 (by decide)),
        if_neg (fun hc => absurd hc.1 (by decide)), if_neg (fun hc => absurd hc.1 (by decide)),
        if_pos rfl, if_neg hg]
      refine ⟨?_, ?_, ?_⟩
      · rw [getCell_setCell_self_dims _ size _ _ _ hd hx hy]
      · intro i j hij
        exact absurd hij (by simp)
      · intro i j hne hnbr
        rw [getCell_setCell_ne _ _ _ _ _ _ hne]
  · unfold placeFenceGrid neighborPos
    by_cases hg : x < size - 1
    · rw [if_neg (fun hc => absurd hc.1 (by decide)), if_pos ⟨rfl, hg⟩,
        if_neg (by decide), if_pos rfl, if_pos hg]
      refine ⟨?_, ?_, ?_⟩
      · rw [getCell_setCell_ne _ _ _ _ _ _ (fun hc => by omega),
          getCell_setCell_self_dims _ size _ _ _ hd hx hy]
      · intro i j hij
        obtain ⟨rfl, rfl⟩ : x + 1 = i ∧ y = j := by
          constructor <;> [exact congrArg Prod.fst (Option.some_inj.mp hij);
            exact congrArg Prod.snd (Option.some_inj.mp hij)]
        rw [getCell_setCell_self_dims _ size _ _ _ hd1 (by omega) hy,
          getCell_setCell_ne _ _ _ _ _ _ (fun hc => by omega)]
        rfl
      · intro i j hne hnbr
        have hij2 : ¬(i = x + 1 ∧ j = y) := fun hc => hnbr (by rw [hc.1, hc.2])
        rw [getCell_setCell_ne _ _ _ _ _ _ hij2, getCell_setCell_ne _ _ _ _ _ _ hne]
    · rw [if_neg (fun hc => absurd hc.1 (by decide)), if_neg (fun hc => hg hc.2),
        if_neg (fun hc => absurd hc.1 (by decide)), if_neg (fun hc => absurd hc.1 (by decide)),
        if_neg (by decide), if_pos rfl, if_neg hg]
      refine ⟨?_, ?_, ?_⟩
      · rw [getCell_setCell_self_dims _ size _ _ _ hd hx hy]
      · intro i j hij
        exact absurd hij (by simp)
      · intro i j hne hnbr
        rw [getCell_setCell_ne _ _ _ _ _ _ hne]
  · unfold placeFenceGrid neighborPos
    by_cases hg : y < size - 1
    · rw [if_neg (fun hc => absurd hc.1 (by decide)), if_neg (fun hc => absurd hc.1 (by decide)),
        if_pos ⟨rfl, hg⟩, if_neg (by decide), if_neg (by decide), if_pos rfl, if_pos hg]
      refine ⟨?_, ?_, ?_⟩
      · rw [getCell_setCell_ne _ _ _ _ _ _ (fun hc => by omega),
          getCell_setCell_self_dims _ size _ _ _ hd hx hy]
      · intro i j hij
        obtain ⟨rfl, rfl⟩ : x = i ∧ y + 1 = j := by
          constructor <;> [exact congrArg Prod.fst (Option.some_inj.mp hij);
            exact congrArg Prod.snd (Option.some_inj.mp hij)]
        rw [getCell_setCell_self_dims _ size _ _ _ hd1 hx (by omega),
          getCell_setCell_ne _ _ _ _ _ _ (fun hc => by omega)]
        rfl
      · intro i j hne hnbr
        have hij2 : ¬(i = x ∧ j = y + 1) := fun hc => hnbr (by rw [hc.1, hc.2])
        rw [getCell_setCell_ne _ _ _ _ _ _ hij2, getCell_setCell_ne _ _ _ _ _ _ hne]
    · rw [if_neg (fun hc => absurd hc.1 (by decide)), if_neg (fun hc => absurd hc.1 (by decide)),
        if_neg (fun hc => hg hc.2), if_neg (fun hc => absurd hc.1 (by decide)),
        if_neg (by decide), if_neg (by decide), if_pos rfl, if_neg hg]
      refine ⟨?_, ?_, ?_⟩
      · rw [getCell_setCell_self_dims _ size _ _ _ hd hx hy]
      · intro i j hij
        exact absurd hij (by simp)
      · intro i j hne hnbr
        rw [getCell_setCell_ne _ _ _ _ _ _ hne]
  · unfold placeFenceGrid neighborPos
    by_cases hg : 0 < x
    · rw [if_neg (fun hc => absurd hc.1 (by decide)), if_neg (fun hc => absurd hc.1 (by decide)),
        if_neg (fun hc => absurd hc.1 (by decide)), if_pos ⟨rfl, hg⟩,
        if_neg (by decide), if_neg (by decide), if_neg (by decide), if_pos rfl, if_pos hg]
      refine ⟨?_, ?_, ?_⟩
      · rw [getCell_setCell_ne _ _ _ _ _ _ (fun hc => by omega),
          getCell_setCell_self_dims _ size _ _ _ hd hx hy]
      · intro i j hij
        obtain ⟨rfl, rfl⟩ : x - 1 = i ∧ y = j := by
          constructor <;> [exact congrArg Prod.fst (Option.some_inj.mp hij);
            exact congrArg Prod.snd (Option.some_inj.mp hij)]
        rw [getCell_setCell_self_dims _ size _ _ _ hd1 (by omega) hy,
          getCell_setCell_ne _ _ _ _ _ _ (fun hc => by omega)]
        rfl
      · intro i j hne hnbr
        have hij2 : ¬(i = x - 1 ∧ j = y) := fun hc => hnbr (by rw [hc.1, hc.2])
        rw [getCell_setCell_ne _ _ _ _ _ _ hij2, getCell_setCell_ne _ _ _ _ _ _ hne]
    · rw [if_neg (fun hc => absurd hc.1 (by decide)), if_neg (fun hc => absurd hc.1 (by decide)),
        if_neg (fun hc => absurd hc.1 (by decide)), if_neg (fun hc => hg hc.2),
        if_neg (by decide), if_neg (by decide), if_neg (by decide), if_pos rfl, if_neg hg]
      refine ⟨?_, ?_, ?_⟩
      · rw [getCell_setCell_self_dims _ size _ _ _ hd hx hy]
      · intro i j hij
        exact absurd hij (by simp)
      · intro i j hne hnbr
        rw [getCell_setCell_ne _ _ _ _ _ _ hne]



/-- The shared-wall invariant: adjacent cells agree on their common
fence. -/
def mirrorOK (grid : List (List Cell)) (size : Nat) : Prop :=
  (∀ x y, x + 1 < size → y < size →
    (getCell grid x y).east = (getCell grid (x + 1) y).west) ∧
  (∀ x y, x < size → y + 1 < size →
    (getCell grid x y).south = (getCell grid x (y + 1)).north)

/-- The fence mutation of `place_fence` preserves the shared-wall
invariant: the named flag and the mirrored neighbor flag are set
together, and no other flag changes. -/
theorem mirrorOK_placeFenceGrid (grid : List (List Cell)) (size x y : Nat) (o : String)
    (hd : gridDims grid size) (hm : mirrorOK grid size)
    (hx : x < size) (hy : y < size)
    (ho : o = "north" ∨ o = "east" ∨ o = "south" ∨ o = "west") :
    mirrorOK (placeFenceGrid grid size x y o) size := by
  obtain ⟨hA, hB, hC⟩ := placeFenceGrid_spec grid size x y o hd hx hy ho
  rcases ho with rfl | rfl | rfl | rfl
  · -- north: the target's north and, when y > 0, the neighbor's south
    have e1 : ∀ i j, (getCell (placeFenceGrid grid size x y "north") i j).east =
        (getCell grid i j).east := by
      intro i j
      by_cases h1 : i = x ∧ j = y
      · obtain ⟨rfl, rfl⟩ := h1
        rw [hA]
        rfl
      · by_cases h2 : neighborPos size x y "north" = some (i, j)
        · rw [hB _ _ h2]
          rfl
        · rw [hC _ _ h1 h2]
    have w1 : ∀ i j, (getCell (placeFenceGrid grid size x y "north") i j).west =
        (getCell grid i j).west := by
      intro i j
      by_cases h1 : i = x ∧ j = y
      · obtain ⟨rfl, rfl⟩ := h1
        rw [hA]
        rfl
      · by_cases h2 : neighborPos size x y "north" = some (i, j)
        · rw [hB _ _ h2]
          rfl
        · rw [hC _ _ h1 h2]
    have nbr1 : 0 < y → neighborPos size x y "north" = some (x, y - 1) := by
      intro h0
      unfold neighborPos
      rw [if_pos rfl, if_pos h0]
    have nbrn : ¬0 < y → ∀ i j, neighborPos size x y "north" ≠ some (i, j) := by
      intro h0 i j
      unfold neighborPos
      rw [if_pos rfl, if_neg h0]
      simp
    have s1 : ∀ i j, ¬(0 < y ∧ i = x ∧ j = y - 1) →
        (getCell (placeFenceGrid grid size x y "north") i j).south =
        (getCell grid i j).south := by
      intro i j h3
      by_cases h1 : i = x ∧ j = y
      · obtain ⟨rfl, rfl⟩ := h1
        rw [hA]
        rfl
      · by_cases h0 : 0 < y
        · have h2 : neighborPos size x y "north" ≠ some (i, j) := by
            rw [nbr1 h0]
            intro hc
            obtain ⟨rfl, rfl⟩ : x = i ∧ y - 1 = j := by
              constructor <;> [exact congrArg Prod.fst (Option.some_inj.mp hc);
                exact congrArg Prod.snd (Option.some_inj.mp hc)]
            exact h3 ⟨h0, rfl, rfl⟩
          rw [hC _ _ h1 h2]
        · rw [hC _ _ h1 (nbrn h0 i j)]
    have n1 : ∀ i j, ¬(i = x ∧ j = y) →
        (getCell (placeFenceGrid grid size x y "north") i j).north =
        (getCell grid i j).north := by
      intro i j h1
      by_cases h0 : 0 < y
      · by_cases h2 : neighborPos size x y "north" = some (i, j)
        · rw [hB _ _ h2]
          rfl
        · rw [hC _ _ h1 h2]
      · rw [hC _ _ h1 (nbrn h0 i j)]
    have n2 : (getCell (placeFenceGrid grid size x y "north") x y).north = true := by
      rw [hA]
      rfl
    have s2 : 0 < y → (getCell (placeFenceGrid grid size x y "north") x (y - 1)).south = true := by
      intro h0
      rw [hB _ _ (nbr1 h0)]
      rfl
    constructor
    · intro a b h1 h2
      rw [e1, w1]
      exact hm.1 a b h1 h2
    · intro a b h1 h2
      by_cases hp : 0 < y ∧ a = x ∧ b = y - 1
      · obtain ⟨h0, rfl, rfl⟩ := hp
        rw [s2 h0]
        have hby : y - 1 + 1 = y := by omega
        rw [hby, n2]
      · rw [s1 _ _ hp, n1 _ _ (fun hc => hp ⟨by omega, hc.1, by omega⟩)]
        exact hm.2 a b h1 h2
  · -- east: the target's east and, when x < size - 1, the neighbor's west
    have n1 : ∀ i j, (getCell (placeFenceGrid grid size x y "east") i j).north =
        (getCell grid i j).north := by
      intro i j
      by_cases h1 : i = x ∧ j = y
      · obtain ⟨rfl, rfl⟩ := h1
        rw [hA]
        rfl
      · by_cases h2 : neighborPos size x y "east" = some (i, j)
        · rw [hB _ _ h2]
          rfl
        · rw [hC _ _ h1 h2]
    have s1 : ∀ i j, (getCell (placeFenceGrid grid size x y "east") i j).south =
        (getCell grid i j).south := by
      intro i j
      by_cases h1 : i = x ∧ j = y
      · obtain ⟨rfl, rfl⟩ := h1
        rw [hA]
        rfl
      · by_cases h2 : neighborPos size x y "east" = some (i, j)
        · rw [hB _ _ h2]
          rfl
        · rw [hC _ _ h1 h2]
    have nbr1 : x < size - 1 → neighborPos size x y "east" = some (x + 1, y) := by
      intro h0
      unfold neighborPos
      rw [if_neg (by decide), if_pos rfl, if_pos h0]
    have nbrn : ¬x < size - 1 → ∀ i j, neighborPos size x y "east" ≠ some (i, j) := by
      intro h0 i j
      unfold neighborPos
      rw [if_neg (by decide), if_pos rfl, if_neg h0]
      simp
    have e1 : ∀ i j, ¬(i = x ∧ j = y) →
        (getCell (placeFenceGrid grid size x y "east") i j).east =
        (getCell grid i j).east := by
      intro i j h1
      by_cases h0 : x < size - 1
      · by_cases h2 : neighborPos size x y "east" = some (i, j)
        · rw [hB _ _ h2]
          rfl
        · rw [hC _ _ h1 h2]
      · rw [hC _ _ h1 (nbrn h0 i j)]
    have w1 : ∀ i j, ¬(x < size - 1 ∧ i = x + 1 ∧ j = y) →
        (getCell (placeFenceGrid grid size x y "east") i j).west =
        (getCell grid i j).west := by
      intro i j h3
      by_cases h1 : i = x ∧ j = y
      · obtain ⟨rfl, rfl⟩ := h1
        rw [hA]
        rfl
      · by_cases h0 : x < size - 1
        · have h2 : neighborPos size x y "east" ≠ some (i, j) := by
            rw [nbr1 h0]
            intro hc
            obtain ⟨rfl, rfl⟩ : x + 1 = i ∧ y = j := by
              constructor <;> [exact congrArg Prod.fst (Option.some_inj.mp hc);
                exact congrArg Prod.snd (Option.some_inj.mp hc)]
            exact h3 ⟨h0, rfl, rfl⟩
          rw [hC _ _ h1 h2]
        · rw [hC _ _ h1 (nbrn h0 i j)]
    have e2 : (getCell (placeFenceGrid grid size x y "east") x y).east = true := by
      rw [hA]
      rfl
    have w2 : x < size - 1 →
        (getCell (placeFenceGrid grid size x y "east") (x + 1) y).west = true := by
      intro h0
      rw [hB _ _ (nbr1 h0)]
      rfl
    constructor
    · intro a b h1 h2
      by_cases hp : a = x ∧ b = y
      · obtain ⟨rfl, rfl⟩ := hp
        rw [e2, w2 (by omega)]
      · rw [e1 _ _ hp, w1 _ _ (fun hc => hp ⟨by omega, hc.2.2⟩)]
        exact hm.1 a b h1 h2
    · intro a b h1 h2
      rw [n1, s1]
      exact hm.2 a b h1 h2
  · -- south: the target's south and, when y < size - 1, the neighbor's north
    have e1 : ∀ i j, (getCell (placeFenceGrid grid size x y "south") i j).east =
        (getCell grid i j).east := by
      intro i j
      by_cases h1 : i = x ∧ j = y
      · obtain ⟨rfl, rfl⟩ := h1
        rw [hA]
        rfl
      · by_cases h2 : neighborPos size x y "south" = some (i, j)
        · rw [hB _ _ h2]
          rfl
        · rw [hC _ _ h1 h2]
    have w1 : ∀ i j, (getCell (placeFenceGrid grid size x y "south") i j).west =
        (getCell grid i j).west := by
      intro i j
      by_cases h1 : i = x ∧ j = y
      · obtain ⟨rfl, rfl⟩ := h1
        rw [hA]
        rfl
      · by_cases h2 : neighborPos size x y "south" = some (i, j)
        · rw [hB _ _ h2]
          rfl
        · rw [hC _ _ h1 h2]
    have nbr1 : y < size - 1 → neighborPos size x y "south" = some (x, y + 1) := by
      intro h0
      unfold neighborPos
      rw [if_neg (by decide), if_neg (by decide), if_pos rfl, if_pos h0]
    have nbrn : ¬y < size - 1 → ∀ i j, neighborPos size x y "south" ≠ some (i, j) := by
      intro h0 i j
      unfold neighborPos
      rw [if_neg (by decide), if_neg (by decide), if_pos rfl, if_neg h0]
      simp
    have s1 : ∀ i j, ¬(i = x ∧ j = y) →
        (getCell (placeFenceGrid grid size x y "south") i j).south =
        (getCell grid i j).south := by
      intro i j h1
      by_cases h0 : y < size - 1
      · by_cases h2 : neighborPos size x y "south" = some (i, j)
        · rw [hB _ _ h2]
          rfl
        · rw [hC _ _ h1 h2]
      · rw [hC _ _ h1 (nbrn h0 i j)]
    have n1 : ∀ i j, ¬(y < size - 1 ∧ i = x ∧ j = y + 1) →
        (getCell (placeFenceGrid grid size x y "south") i j).north =
        (getCell grid i j).north := by
      intro i j h3
      by_cases h1 : i = x ∧ j = y
      · obtain ⟨rfl, rfl⟩ := h1
        rw [hA]
        rfl
      · by_cases h0 : y < size - 1
        · have h2 : neighborPos size x y "south" ≠ some (i, j) := by
            rw [nbr1 h0]
            intro hc
            obtain ⟨rfl, rfl⟩ : x = i ∧ y + 1 = j := by
              constructor <;> [exact congrArg Prod.fst (Option.some_inj.mp hc);
                exact congrArg Prod.snd (Option.some_inj.mp hc)]
            exact h3 ⟨h0, rfl, rfl⟩
          rw [hC _ _ h1 h2]
        · rw [hC _ _ h1 (nbrn h0 i j)]
    have s2 : (getCell (placeFenceGrid grid size x y "south") x y).south = true := by
      rw [hA]
      rfl
    have n2 : y < size - 1 →
        (getCell (placeFenceGrid grid size x y "south") x (y + 1)).north = true := by
      intro h0
      rw [hB _ _ (nbr1 h0)]
      rfl
    constructor
    · intro a b h1 h2
      rw [e1, w1]
      exact hm.1 a b h1 h2
    · intro a b h1 h2
      by_cases hp : a = x ∧ b = y
      · obtain ⟨rfl, rfl⟩ := hp
        rw [s2, n2 (by omega)]
      · rw [s1 _ _ hp, n1 _ _ (fun hc => hp ⟨hc.2.1, by omega⟩)]
        exact hm.2 a b h1 h2
  · -- west: the target's west and, when 0 < x, the neighbor's east
    have n1 : ∀ i j, (getCell (placeFenceGrid grid size x y "west") i j).north =
        (getCell grid i j).north := by
      intro i j
      by_cases h1 : i = x ∧ j = y
      · obtain ⟨rfl, rfl⟩ := h1
        rw [hA]
        rfl
      · by_cases h2 : neighborPos size x y "west" = some (i, j)
        · rw [hB _ _ h2]
          rfl
        · rw [hC _ _ h1 h2]
    have s1 : ∀ i j, (getCell (placeFenceGrid grid size x y "west") i j).south =
        (getCell grid i j).south := by
      intro i j
      by_cases h1 : i = x ∧ j = y
      · obtain ⟨rfl, rfl⟩ := h1
        rw [hA]
        rfl
      · by_cases h2 : neighborPos size x y "west" = some (i, j)
        · rw [hB _ _ h2]
          rfl
        · rw [hC _ _ h1 h2]
    have nbr1 : 0 < x → neighborPos size x y "west" = some (x - 1, y) := by
      intro h0
      unfold neighborPos
      rw [if_neg (by decide), if_neg (by decide), if_neg (by decide), if_pos rfl, if_pos h0]
    have nbrn : ¬0 < x → ∀ i j, neighborPos size x y "west" ≠ some (i, j) := by
      intro h0 i j
      unfold neighborPos
      rw [if_neg (by decide), if_neg (by decide), if_neg (by decide), if_pos rfl, if_neg h0]
      simp
    have w1 : ∀ i j, ¬(i = x ∧ j = y) →
        (getCell (placeFenceGrid grid size x y "west") i j).west =
        (getCell grid i j).west := by
      intro i j h1
      by_cases h0 : 0 < x
      · by_cases h2 : neighborPos size x y "west" = some (i, j)
        · rw [hB _ _ h2]
          rfl
        · rw [hC _ _ h1 h2]
      · rw [hC _ _ h1 (nbrn h0 i j)]
    have e1 : ∀ i j, ¬(0 < x ∧ i = x - 1 ∧ j = y) →
        (getCell (placeFenceGrid grid size x y "west") i j).east =
        (getCell grid i j).east := by
      intro i j h3
      by_cases h1 : i = x ∧ j = y
      · obtain ⟨rfl, rfl⟩ := h1
        rw [hA]
        rfl
      · by_cases h0 : 0 < x
        · have h2 : neighborPos size x y "west" ≠ some (i, j) := by
            rw [nbr1 h0]
            intro hc
            obtain ⟨rfl, rfl⟩ : x - 1 = i ∧ y = j := by
              constructor <;> [exact congrArg Prod.fst (Option.some_inj.mp hc);
                exact congrArg Prod.snd (Option.some_inj.mp hc)]
            exact h3 ⟨h0, rfl, rfl⟩
          rw [hC _ _ h1 h2]
        · rw [hC _ _ h1 (nbrn h0 i j)]
    have w2 : (getCell (placeFenceGrid grid size x y "west") x y).west = true := by
      rw [hA]
      rfl
    have e2 : 0 < x →
        (getCell (placeFenceGrid grid size x y "west") (x - 1) y).east = true := by
      intro h0
      rw [hB _ _ (nbr1 h0)]
      rfl
    constructor
    · intro a b h1 h2
      by_cases hp : 0 < x ∧ a = x - 1 ∧ b = y
      · obtain ⟨h0, rfl, rfl⟩ := hp
        have hax : x - 1 + 1 = x := by omega
        rw [e2 h0, hax, w2]
      · rw [e1 _ _ hp, w1 _ _ (fun hc => hp ⟨by omega, by omega, hc.2⟩)]
        exact hm.1 a b h1 h2
    · intro a b h1 h2
      rw [n1, s1]
      exact hm.2 a b h1 h2



theorem getD_of_le (l : List α) (i : Nat) (d : α) (h : l.length ≤ i) : l.getD i d = d := by
  induction l generalizing i with
  | nil => simp
  | cons b t ih =>
    cases i with
    | zero => simp at h
    | succ j =>
      simp only [List.getD_cons_succ]
      exact ih j (by simpa using h)

theorem getD_map (l : List α) (f : α → β) (i : Nat) (d : α) :
    (l.map f).getD i (f d) = f (l.getD i d) := by
  induction l generalizing i with
  | nil => simp
  | cons b t ih =>
    cases i with
    | zero => simp
    | succ j => simpa using ih j

theorem findPlayerIdx_lt (ps : List Player) (pid : String) (k : Nat)
    (h : findPlayerIdx ps pid = some k) : k < ps.length := by
  induction ps generalizing k with
  | nil =>
    unfold findPlayerIdx at h
    cases h
  | cons p t ih =>
    unfold findPlayerIdx at h
    by_cases hp : p.id = pid
    · rw [if_pos hp] at h
      have : k = 0 := (Option.some_inj.mp h).symm
      subst this
      simp
    · rw [if_neg hp] at h
      rcases hi : findPlayerIdx t pid with _ | k2
      · rw [hi] at h
        simp at h
      · rw [hi] at h
        simp at h
        subst h
        have := ih k2 hi
        simpa using Nat.succ_lt_succ this

theorem dirSet_isSome (d : Dir) (k q : String) (v : Stats)
    (h : (d q).isSome = true ∨ q = k) : ((dirSet d k v) q).isSome = true := by
  unfold dirSet
  by_cases hq : q = k
  · rw [if_pos hq]
    rfl
  · rw [if_neg hq]
    rcases h with h | h
    · exact h
    · exact absurd h hq

theorem recordWin_isSome (d : Dir) (pid q : String) (h : (d q).isSome = true) :
    ((recordWin d pid) q).isSome = true := by
  unfold recordWin
  rcases hd : d pid with _ | st
  · exact h
  · exact dirSet_isSome _ _ _ _ (Or.inl h)

theorem recordLoss_isSome (d : Dir) (pid q : String) (h : (d q).isSome = true) :
    ((recordLoss d pid) q).isSome = true := by
  unfold recordLoss
  rcases hd : d pid with _ | st
  · exact h
  · exact dirSet_isSome _ _ _ _ (Or.inl h)

theorem recordDraw_isSome (d : Dir) (pid q : String) (h : (d q).isSome = true) :
    ((recordDraw d pid) q).isSome = true := by
  unfold recordDraw
  rcases hd : d pid with _ | st
  · exact h
  · exact dirSet_isSome _ _ _ _ (Or.inl h)

theorem foldl_dir_isSome (l : List Player) (d : Dir) (f : Dir → Player → Dir)
    (hstep : ∀ d2 p q, (d2 q).isSome = true → ((f d2 p) q).isSome = true) (q : String)
    (h : (d q).isSome = true) : ((l.foldl f d) q).isSome = true := by
  induction l generalizing d with
  | nil => exact h
  | cons p t ih =>
    simp only [List.foldl_cons]
    exact ih (f d p) (hstep d p q h)

theorem end_game_dir_isSome (g : Game) (d : Dir) (q : String)
    (h : (d q).isSome = true) : ((end_game g d).2 q).isSome = true := by
  unfold end_game
  dsimp only
  split
  · apply foldl_dir_isSome _ _ _ _ _ h
    intro d2 p q2 h2
    by_cases hw : p.id = (List.map Player.id
        (List.filter (fun p => decide (p.score = max_score g.players)) g.players)).headD ""
    · rw [if_pos hw]
      exact recordWin_isSome _ _ _ h2
    · rw [if_neg hw]
      exact recordLoss_isSome _ _ _ h2
  · apply foldl_dir_isSome _ _ _ _ _ h
    intro d2 p q2 h2
    exact recordDraw_isSome _ _ _ h2

theorem owners_setCell_subset (grid : List (List Cell)) (x y : Nat) (c : Cell)
    (P : Option String → Prop) (hnone : P none)
    (hgrid : ∀ row ∈ grid, ∀ cc ∈ row, P cc.owner) (hc : P c.owner) :
    ∀ row ∈ setCell grid x y c, ∀ cc ∈ row, P cc.owner := by
  intro row hrow cc hcc
  rcases List.mem_or_eq_of_mem_set hrow with hmem | heq
  · exact hgrid row hmem cc hcc
  · subst heq
    rcases List.mem_or_eq_of_mem_set hcc with hmem2 | heq2
    · by_cases hy : y < grid.length
      · exact hgrid _ (mem_of_getD _ _ _ hy) cc hmem2
      · rw [getD_of_le _ _ _ (by omega)] at hmem2
        simp at hmem2
    · subst heq2
      exact hc

theorem owner_pred_getCell (grid : List (List Cell)) (x y : Nat)
    (P : Option String → Prop) (hnone : P none)
    (hgrid : ∀ row ∈ grid, ∀ c ∈ row, P c.owner) : P ((getCell grid x y).owner) := by
  unfold getCell
  by_cases hy : y < grid.length
  · by_cases hx : x < (grid.getD y []).length
    · exact hgrid _ (mem_of_getD _ _ _ hy) _ (mem_of_getD _ _ _ hx)
    · rw [getD_of_le _ _ _ (by omega)]
      exact hnone
  · rw [getD_of_le grid y [] (by omega)]
    simp only [List.getD_nil]
    exact hnone

theorem owners_placeFenceGrid (grid : List (List Cell)) (size x y : Nat) (o : String)
    (P : Option String → Prop) (hnone : P none)
    (h : ∀ row ∈ grid, ∀ c ∈ row, P c.owner) :
    ∀ row ∈ placeFenceGrid grid size x y o, ∀ c ∈ row, P c.owner := by
  have hg1 : ∀ row ∈ setCell grid x y ((getCell grid x y).setFence o), ∀ c ∈ row, P c.owner := by
    apply owners_setCell_subset _ _ _ _ _ hnone h
    rw [owner_setFence]
    exact owner_pred_getCell _ _ _ _ hnone h
  unfold placeFenceGrid
  split_ifs with h1 h2 h3 h4
  · apply owners_setCell_subset _ _ _ _ _ hnone hg1
    rw [owner_setFence]
    exact owner_pred_getCell _ _ _ _ hnone hg1
  · apply owners_setCell_subset _ _ _ _ _ hnone hg1
    rw [owner_setFence]
    exact owner_pred_getCell _ _ _ _ hnone hg1
  · apply owners_setCell_subset _ _ _ _ _ hnone hg1
    rw [owner_setFence]
    exact owner_pred_getCell _ _ _ _ hnone hg1
  · apply owners_setCell_subset _ _ _ _ _ hnone hg1
    rw [owner_setFence]
    exact owner_pred_getCell _ _ _ _ hnone hg1
  · exact hg1

theorem ownedValue_zero_of_pred (grid : List (List Cell)) (pid : String)
    (h : ∀ row ∈ grid, ∀ c ∈ row, c.owner ≠ some pid) : ownedValue grid pid = 0 := by
  unfold ownedValue rowOwned
  apply List.sum_eq_zero
  intro a ha
  obtain ⟨row, hrow, rfl⟩ := List.mem_map.mp ha
  apply List.sum_eq_zero
  intro b hb
  obtain ⟨c, hc, rfl⟩ := List.mem_map.mp hb
  unfold cellContrib
  rw [if_neg (h row hrow c hc)]

theorem check_land_enclosed_owner (grid : List (List Cell)) (x y : Nat)
    (h : check_land_enclosed grid x y = true) : (getCell grid x y).owner = none := by
  unfold check_land_enclosed at h
  simp only [Bool.and_eq_true, Option.isNone_iff_eq_none] at h
  exact h.2

theorem mirrorOK_setCell_same_fences (grid : List (List Cell)) (size x y : Nat) (c : Cell)
    (hd : gridDims grid size) (hm : mirrorOK grid size) (hx : x < size) (hy : y < size)
    (hn : c.north = (getCell grid x y).north) (he : c.east = (getCell grid x y).east)
    (hs : c.south = (getCell grid x y).south) (hw : c.west = (getCell grid x y).west) :
    mirrorOK (setCell grid x y c) size := by
  have hself := getCell_setCell_self_dims grid size x y c hd hx hy
  constructor
  · intro a b h1 h2
    by_cases hp1 : a = x ∧ b = y
    · obtain ⟨rfl, rfl⟩ := hp1
      rw [hself, he, getCell_setCell_ne _ _ _ _ _ _ (fun hc => by omega)]
      exact hm.1 a b h1 h2
    · rw [getCell_setCell_ne _ _ _ _ _ _ hp1]
      by_cases hp2 : a + 1 = x ∧ b = y
      · obtain ⟨hax, rfl⟩ := hp2
        rw [hax, hself, hw, ← hax]
        exact hm.1 a b h1 h2
      · rw [getCell_setCell_ne _ _ _ _ _ _ hp2]
        exact hm.1 a b h1 h2
  · intro a b h1 h2
    by_cases hp1 : a = x ∧ b = y
    · obtain ⟨rfl, rfl⟩ := hp1
      rw [hself, hs, getCell_setCell_ne _ _ _ _ _ _ (fun hc => by omega)]
      exact hm.2 a b h1 h2
    · rw [getCell_setCell_ne _ _ _ _ _ _ hp1]
      by_cases hp2 : a = x ∧ b + 1 = y
      · obtain ⟨rfl, hby⟩ := hp2
        rw [hby, hself, hn, ← hby]
        exact hm.2 a b h1 h2
      · rw [getCell_setCell_ne _ _ _ _ _ _ hp2]
        exact hm.2 a b h1 h2



/-- The reachable-state invariant for a live session: nonempty roster,
in-range turn pointer, distinct seat ids, validated square grid with the
shared-wall property, per-player score bookkeeping (each seated player's
score is the total value of the cells they own), and the bookkeeping of
the ghost `used` list and the directory. -/
def Inv (s : ServerState) : Prop :=
  ∀ g, s.game = some g →
    g.players ≠ [] ∧
    g.current_player_index < g.players.length ∧
    (g.players.map Player.id).Nodup ∧
    2 ≤ g.grid_size ∧
    gridDims g.grid g.grid_size ∧
    mirrorOK g.grid g.grid_size ∧
    (∀ p ∈ g.players, p.score = ownedValue g.grid p.id) ∧
    (∀ i ∈ g.players.map Player.id, i ∈ s.used) ∧
    (∀ row ∈ g.grid, ∀ c ∈ row, ∀ o2, c.owner = some o2 → o2 ∈ s.used) ∧
    (∀ i ∈ g.players.map Player.id, (s.dir i).isSome = true)

theorem getD_map_range (n : Nat) (f : Nat → α) (y : Nat) (d : α) (h : y < n) :
    ((List.range n).map f).getD y d = f y := by
  have hlen : y < ((List.range n).map f).length := by
    simpa using h
  rw [List.getD_eq_getElem _ d hlen]
  simp

theorem getCell_initialize_grid (n : Nat) (land : Nat → Nat → String) (x y : Nat)
    (hx : x < n) (hy : y < n) :
    getCell (initialize_grid n land) x y =
      { north := false, east := false, south := false, west := false,
        owner := none, landType := land x y,
        value := if land x y = "copper" then 2 else if land x y = "gold" then 3 else 1 } := by
  unfold getCell initialize_grid
  rw [getD_map_range _ _ _ _ hy, getD_map_range _ _ _ _ hx]

theorem gridDims_initialize_grid (n : Nat) (land : Nat → Nat → String) :
    gridDims (initialize_grid n land) n := by
  constructor
  · simp [initialize_grid]
  · intro row hrow
    obtain ⟨y, hy, rfl⟩ := List.mem_map.mp hrow
    simp

theorem mirrorOK_initialize_grid (n : Nat) (land : Nat → Nat → String) :
    mirrorOK (initialize_grid n land) n := by
  constructor
  · intro x y h1 h2
    rw [getCell_initialize_grid _ _ _ _ (by omega) h2,
      getCell_initialize_grid _ _ _ _ h1 h2]
  · intro x y h1 h2
    rw [getCell_initialize_grid _ _ _ _ h1 (by omega),
      getCell_initialize_grid _ _ _ _ h1 h2]

theorem owners_initialize_grid (n : Nat) (land : Nat → Nat → String) :
    ∀ row ∈ initialize_grid n land, ∀ c ∈ row, c.owner = none := by
  intro row hrow c hc
  obtain ⟨y, hy, rfl⟩ := List.mem_map.mp hrow
  obtain ⟨x, hx, rfl⟩ := List.mem_map.mp hc
  rfl

theorem ownedValue_initialize_grid (n : Nat) (land : Nat → Nat → String) (pid : String) :
    ownedValue (initialize_grid n land) pid = 0 := by
  apply ownedValue_zero_of_pred
  intro row hrow c hc
  rw [owners_initialize_grid n land row hrow c hc]
  simp

/-- `create_game` preserves the invariant. -/
theorem create_inv (s : ServerState) (pid pname : String) (gs np : Int)
    (land : Nat → Nat → String) (h : Inv s) :
    Inv (create_game s pid pname gs np land).2 := by
  unfold create_game
  by_cases h1 : gs < 2 ∨ 10 < gs
  · rw [if_pos h1]
    exact h
  · rw [if_neg h1]
    by_cases h2 : np < 2 ∨ 4 < np
    · rw [if_pos h2]
      exact h
    · rw [if_neg h2]
      intro g hg
      dsimp only at hg
      have hgeq := (Option.some_inj.mp hg).symm
      subst hgeq
      push_neg at h1
      refine ⟨by simp, by simp, by simp, by dsimp only; omega, gridDims_initialize_grid _ _,
        mirrorOK_initialize_grid _ _, ?_, ?_, ?_, ?_⟩
      · intro p hp
        have : p = { id := pid, name := pname, score := 0 } := by simpa using hp
        subst this
        rw [ownedValue_initialize_grid]
      · intro i hi
        have : i = pid := by simpa using hi
        subst this
        exact List.mem_cons_self _ _
      · intro row hrow c hc o2 ho2
        rw [owners_initialize_grid _ _ row hrow c hc] at ho2
        cases ho2
      · intro i hi
        have hip : i = pid := by simpa using hi
        rw [hip]
        dsimp only
        by_cases hd : (s.dir pid).isSome = true
        · rw [if_pos hd]
          exact hd
        · rw [if_neg hd]
          exact dirSet_isSome _ _ _ _ (Or.inr rfl)

/-- `join_game` preserves the invariant for a fresh joining id. -/
theorem join_inv (s : ServerState) (pid pname : String) (hfresh : pid ∉ s.used)
    (h : Inv s) : Inv (join_game s pid pname).2 := by
  unfold join_game
  rcases hsg : s.game with _ | g
  · exact h
  · dsimp only
    obtain ⟨hne, hidx, hnd, hsz, hdm, hmr, hsc, hus, how, hdir⟩ := h g hsg
    by_cases h1 : g.num_players ≤ g.players.length
    · rw [if_pos h1]
      exact h
    · rw [if_neg h1]
      by_cases h2 : g.players.any (fun p => p.id = pid)
      · rw [if_pos h2]
        exact h
      · rw [if_neg h2]
        intro g2 hg2
        have hgeq := (Option.some_inj.mp hg2).symm
        subst hgeq
        dsimp only
        have hpid_not : pid ∉ g.players.map Player.id := by
          intro hc
          exact hfresh (hus pid hc)
        refine ⟨by simp, ?_, ?_, hsz, hdm, hmr, ?_, ?_, ?_, ?_⟩
        · simp only [List.length_append, List.length_cons, List.length_nil]
          omega
        · rw [List.map_append]
          rw [List.nodup_append]
          refine ⟨hnd, by simp, ?_⟩
          intro a ha hb
          simp only [List.map_cons, List.map_nil, List.mem_cons, List.not_mem_nil,
            or_false] at hb
          subst hb
          exact hpid_not ha
        · intro p hp
          rcases List.mem_append.mp hp with hp1 | hp2
          · exact hsc p hp1
          · have : p = { id := pid, name := pname, score := 0 } := by simpa using hp2
            subst this
            dsimp only
            rw [ownedValue_zero_of_pred]
            intro row hrow c hc hcown
            exact hfresh (how row hrow c hc pid hcown)
        · intro i hi
          rw [List.map_append] at hi
          rcases List.mem_append.mp hi with hi1 | hi2
          · exact List.mem_cons_of_mem _ (hus i hi1)
          · have : i = pid := by simpa using hi2
            subst this
            exact List.mem_cons_self _ _
        · intro row hrow c hc o2 ho2
          exact List.mem_cons_of_mem _ (how row hrow c hc o2 ho2)
        · intro i hi
          rw [List.map_append] at hi
          by_cases hip : i = pid
          · subst hip
            by_cases hd : (s.dir i).isSome = true
            · rw [if_pos hd]
              exact hd
            · rw [if_neg hd]
              exact dirSet_isSome _ _ _ _ (Or.inr rfl)
          · rcases List.mem_append.mp hi with hi1 | hi2
            · by_cases hd : (s.dir pid).isSome = true
              · rw [if_pos hd]
                exact hdir i hi1
              · rw [if_neg hd]
                exact dirSet_isSome _ _ _ _ (Or.inl (hdir i hi1))
            · exact absurd (by simpa using hi2) hip

/-- A timeout firing preserves the invariant. -/
theorem timeout_inv (s : ServerState) (h : Inv s) : Inv (timeout_advance s) := by
  unfold timeout_advance
  rcases hsg : s.game with _ | g
  · exact h
  · dsimp only
    obtain ⟨hne, hidx, hnd, hsz, hdm, hmr, hsc, hus, how, hdir⟩ := h g hsg
    by_cases h1 : g.game_over = true
    · rw [if_pos h1]
      exact h
    · rw [if_neg h1]
      intro g2 hg2
      have hgeq := (Option.some_inj.mp hg2).symm
      subst hgeq
      refine ⟨hne, ?_, hnd, hsz, hdm, hmr, hsc, hus, how, hdir⟩
      apply Nat.mod_lt
      cases hps : g.players with
      | nil => exact absurd hps hne
      | cons a t => simp



/-- `handle_player_disconnect` preserves the invariant. -/
theorem leave_inv (s : ServerState) (pid : String) (h : Inv s) :
    Inv (handle_player_disconnect s pid).2 := by
  unfold handle_player_disconnect
  rcases hsg : s.game with _ | g
  · exact h
  · dsimp only
    obtain ⟨hne, hidx, hnd, hsz, hdm, hmr, hsc, hus, how, hdir⟩ := h g hsg
    rcases hfind : findPlayerIdx g.players pid with _ | k
    · exact h
    · dsimp only
      have hk := findPlayerIdx_lt _ _ _ hfind
      by_cases h1 : g.players.length ≤ 1
      · rw [if_pos h1]
        intro g2 hg2
        cases hg2
      · rw [if_neg h1]
        intro g2 hg2
        have hgeq := (Option.some_inj.mp hg2).symm
        subst hgeq
        dsimp only
        have hsub : List.Sublist (g.players.eraseIdx k) g.players :=
          List.eraseIdx_sublist g.players k
        have hlen1 : (g.players.eraseIdx k).length = g.players.length - 1 := by
          rw [List.length_eraseIdx]
          simp [hk]
        refine ⟨?_, ?_, ?_, hsz, hdm, hmr, ?_, ?_, ?_, ?_⟩
        · intro hnil
          rw [hnil] at hlen1
          simp at hlen1
          omega
        · split_ifs with hcut
          · omega
          · omega
        · exact List.Nodup.sublist (hsub.map Player.id) hnd
        · intro p hp
          exact hsc p (hsub.subset hp)
        · intro i hi
          exact hus i ((hsub.map Player.id).subset hi)
        · exact how
        · intro i hi
          apply recordLoss_isSome
          apply foldl_dir_isSome
          · intro d2 p q h2
            by_cases hne2 : p.id ≠ pid
            · rw [if_pos hne2]
              exact recordWin_isSome _ _ _ h2
            · rw [if_neg hne2]
              exact h2
          · exact hdir i ((hsub.map Player.id).subset hi)



/-- The pre-`end_game` part of a validated move preserves every invariant
conjunct that concerns the game itself, and does not change the seat id
list. -/
theorem fenceStep_inv (s : ServerState) (g : Game) (hg : s.game = some g) (hInv : Inv s)
    (x y : Nat) (o : String) (hx : x < g.grid_size) (hy : y < g.grid_size)
    (ho : o = "north" ∨ o = "east" ∨ o = "south" ∨ o = "west") :
    (fenceStep g x y o).players.map Player.id = g.players.map Player.id ∧
    (fenceStep g x y o).players ≠ [] ∧
    (fenceStep g x y o).current_player_index < (fenceStep g x y o).players.length ∧
    ((fenceStep g x y o).players.map Player.id).Nodup ∧
    2 ≤ (fenceStep g x y o).grid_size ∧
    gridDims (fenceStep g x y o).grid (fenceStep g x y o).grid_size ∧
    mirrorOK (fenceStep g x y o).grid (fenceStep g x y o).grid_size ∧
    (∀ p ∈ (fenceStep g x y o).players, p.score = ownedValue (fenceStep g x y o).grid p.id) ∧
    (∀ row ∈ (fenceStep g x y o).grid, ∀ c ∈ row, ∀ o2, c.owner = some o2 → o2 ∈ s.used) := by
  obtain ⟨hne, hidx, hnd, hsz, hdm, hmr, hsc, hus, how, hdir⟩ := hInv g hg
  have hdm1 : gridDims (placeFenceGrid g.grid g.grid_size x y o) g.grid_size :=
    gridDims_placeFenceGrid _ _ _ _ _ hdm
  have hmr1 : mirrorOK (placeFenceGrid g.grid g.grid_size x y o) g.grid_size :=
    mirrorOK_placeFenceGrid _ _ _ _ _ hdm hmr hx hy ho
  have how1 : ∀ row ∈ placeFenceGrid g.grid g.grid_size x y o, ∀ c ∈ row,
      ∀ o2, c.owner = some o2 → o2 ∈ s.used := by
    apply owners_placeFenceGrid _ _ _ _ _ (fun ow => ∀ o2, ow = some o2 → o2 ∈ s.used)
    · intro o2 hc
      cases hc
    · exact how
  have hov1 : ∀ q, ownedValue (placeFenceGrid g.grid g.grid_size x y o) q =
      ownedValue g.grid q := fun q => ownedValue_placeFenceGrid _ _ _ _ _ _
  have hlenpos : 0 < g.players.length := List.length_pos.mpr hne
  unfold fenceStep
  dsimp only
  by_cases hcl : check_land_enclosed (placeFenceGrid g.grid g.grid_size x y o) x y = true
  · rw [if_pos hcl, if_pos hcl, if_pos hcl]
    have hcellown : (getCell (placeFenceGrid g.grid g.grid_size x y o) x y).owner = none :=
      check_land_enclosed_owner _ _ _ hcl
    have hcp : g.players.getD g.current_player_index noPlayer ∈ g.players :=
      mem_of_getD _ _ _ hidx
    have hcpid : (g.players.getD g.current_player_index noPlayer).id ∈
        g.players.map Player.id := List.mem_map_of_mem _ hcp
    have hmap : (g.players.set g.current_player_index
        { g.players.getD g.current_player_index noPlayer with
          score := (g.players.getD g.current_player_index noPlayer).score +
            (getCell (placeFenceGrid g.grid g.grid_size x y o) x y).value }).map Player.id =
        g.players.map Player.id := by
      rw [List.map_set]
      have hgd : Player.id (g.players.getD g.current_player_index noPlayer) =
          (g.players.map Player.id).getD g.current_player_index noPlayer.id :=
        (getD_map g.players Player.id g.current_player_index noPlayer).symm
      dsimp only at hgd ⊢
      rw [hgd, set_getD_self]
      simpa using hidx
    have hb1 : y < (placeFenceGrid g.grid g.grid_size x y o).length := by
      rw [hdm1.1]
      exact hy
    have hb2 : x < ((placeFenceGrid g.grid g.grid_size x y o).getD y []).length := by
      rw [hdm1.2 _ (mem_of_getD _ _ _ hb1)]
      exact hx
    refine ⟨hmap, ?_, ?_, ?_, hsz, ?_, ?_, ?_, ?_⟩
    · apply List.length_pos.mp
      rw [List.length_set]
      exact hlenpos
    · rw [List.length_set]
      exact hidx
    · rw [hmap]
      exact hnd
    · exact gridDims_setCell _ _ _ _ _ hdm1
    · apply mirrorOK_setCell_same_fences _ _ _ _ _ hdm1 hmr1 hx hy <;> rfl
    · intro p hp
      obtain ⟨j, hj, hpj⟩ := exists_getD_of_mem _ p noPlayer hp
      rw [List.length_set] at hj
      have hmain : ∀ q, ownedValue (setCell (placeFenceGrid g.grid g.grid_size x y o) x y
          { getCell (placeFenceGrid g.grid g.grid_size x y o) x y with
            owner := some (g.players.getD g.current_player_index noPlayer).id }) q =
          ownedValue (placeFenceGrid g.grid g.grid_size x y o) q +
          (if (g.players.getD g.current_player_index noPlayer).id = q then
            (getCell (placeFenceGrid g.grid g.grid_size x y o) x y).value else 0) := by
        intro q
        have hset := ownedValue_setCell (placeFenceGrid g.grid g.grid_size x y o) x y
          { getCell (placeFenceGrid g.grid g.grid_size x y o) x y with
            owner := some (g.players.getD g.current_player_index noPlayer).id } q hb1 hb2
        have hc1 : cellContrib q (getCell (placeFenceGrid g.grid g.grid_size x y o) x y) = 0 := by
          unfold cellContrib
          rw [hcellown]
          simp
        have hc2 : cellContrib q { getCell (placeFenceGrid g.grid g.grid_size x y o) x y with
            owner := some (g.players.getD g.current_player_index noPlayer).id } =
            (if (g.players.getD g.current_player_index noPlayer).id = q then
              (getCell (placeFenceGrid g.grid g.grid_size x y o) x y).value else 0) := by
          unfold cellContrib
          simp only [Option.some.injEq]
        rw [hc1, hc2] at hset
        omega
      by_cases hji : j = g.current_player_index
      · subst hji
        rw [getD_set_self _ _ _ _ (by simpa using hj)] at hpj
        subst hpj
        dsimp only
        rw [hmain, if_pos rfl, hov1]
        rw [hsc _ hcp]
      · rw [getD_set_ne _ _ _ _ _ (fun he => hji he.symm)] at hpj
        have hpmem : p ∈ g.players := by
          rw [← hpj]
          exact mem_of_getD _ _ _ hj
        have hpid_ne : p.id ≠ (g.players.getD g.current_player_index noPlayer).id := by
          rw [← hpj]
          exact nodup_map_getD_ne _ _ hnd j g.current_player_index hj hidx hji noPlayer
        rw [hmain, if_neg (fun he => hpid_ne he.symm), hov1]
        simpa using hsc p hpmem
    · apply owners_setCell_subset _ _ _ _ (fun ow => ∀ o2, ow = some o2 → o2 ∈ s.used)
      · intro o2 hc
        cases hc
      · exact how1
      · intro o2 hc
        have : (g.players.getD g.current_player_index noPlayer).id = o2 := by
          simpa using hc
        rw [← this]
        exact hus _ hcpid
  · have hcl2 : check_land_enclosed (placeFenceGrid g.grid g.grid_size x y o) x y = false := by
      revert hcl
      cases check_land_enclosed (placeFenceGrid g.grid g.grid_size x y o) x y <;> simp
    rw [if_neg (by simp [hcl2]), if_neg (by simp [hcl2]), if_neg (by simp [hcl2])]
    refine ⟨rfl, hne, ?_, hnd, hsz, hdm1, hmr1, ?_, how1⟩
    · exact Nat.mod_lt _ hlenpos
    · intro p hp
      rw [hov1]
      exact hsc p hp



/-- Every `place_fence` call either leaves the state untouched (an error
response) or reports success. -/
theorem place_fence_state_or_success (s : ServerState) (pid : String) (px py : Option Int)
    (o : String) :
    (place_fence s pid px py o).2 = s ∨ (place_fence s pid px py o).1.status = "success" := by
  rw [place_fence]
  rcases hsg : s.game with _ | g
  · left
    rfl
  · dsimp only
    by_cases h1 : (g.players.getD g.current_player_index noPlayer).id ≠ pid
    · rw [if_pos h1]
      left
      rfl
    · rw [if_neg h1]
      by_cases h2 : g.game_over = true
      · rw [if_pos h2]
        left
        rfl
      · rw [if_neg h2]
        rcases px with _ | xi
        · rcases py with _ | yi
          · left
            rfl
          · left
            rfl
        · rcases py with _ | yi
          · left
            rfl
          · dsimp only
            by_cases h3 : xi < 0 ∨ (g.grid_size : Int) ≤ xi ∨ yi < 0 ∨ (g.grid_size : Int) ≤ yi
            · rw [if_pos h3]
              left
              rfl
            · rw [if_neg h3]
              by_cases h4 : o = "north" ∨ o = "east" ∨ o = "south" ∨ o = "west"
              · rw [if_neg (not_not_intro h4)]
                by_cases h5 : (getCell g.grid xi.toNat yi.toNat).getFence o = true
                · rw [if_pos h5]
                  left
                  rfl
                · rw [if_neg h5]
                  right
                  rfl
              · rw [if_pos h4]
                left
                rfl

/-- `place_fence` preserves the invariant. -/
theorem place_inv (s : ServerState) (pid : String) (px py : Option Int) (o : String)
    (h : Inv s) : Inv (place_fence s pid px py o).2 := by
  rcases place_fence_state_or_success s pid px py o with hstate | hsucc
  · rw [hstate]
    exact h
  · obtain ⟨g, xi, yi, hg, hpx, hpy, hturn, hover, hx0, hx1, hy0, hy1, ho, hf, heq⟩ :=
      place_fence_success_form s pid px py o hsucc
    rw [heq]
    intro g2 hg2
    dsimp only at hg2
    have hg2eq := (Option.some_inj.mp hg2).symm
    subst hg2eq
    have hx : xi.toNat < g.grid_size := by omega
    have hy : yi.toNat < g.grid_size := by omega
    obtain ⟨hmap, hne1, hidx1, hnd1, hsz1, hdm1, hmr1, hsc1, how1⟩ :=
      fenceStep_inv s g hg h xi.toNat yi.toNat o hx hy ho
    obtain ⟨hne0, hidx0, hnd0, hsz0, hdm0, hmr0, hsc0, hus0, how0, hdir0⟩ := h g hg
    rw [apply_fence_eq]
    by_cases hgo : check_game_over (fenceStep g xi.toNat yi.toNat o) = true
    · rw [if_pos hgo]
      dsimp only
      obtain ⟨hp, hi, hgr, hgs, hnp, hov⟩ :=
        end_game_preserves (fenceStep g xi.toNat yi.toNat o) s.dir
      refine ⟨?_, ?_, ?_, ?_, ?_, ?_, ?_, ?_, ?_, ?_⟩
      · rw [hp]
        exact hne1
      · rw [hp, hi]
        exact hidx1
      · rw [hp]
        exact hnd1
      · rw [hgs]
        exact hsz1
      · rw [hgr, hgs]
        exact hdm1
      · rw [hgr, hgs]
        exact hmr1
      · intro p hpm
        rw [hgr]
        apply hsc1
        rw [← hp]
        exact hpm
      · intro i hi2
        rw [hp, hmap] at hi2
        exact hus0 i hi2
      · intro row hrow c hc o2 ho2
        rw [hgr] at hrow
        exact how1 row hrow c hc o2 ho2
      · intro i hi2
        rw [hp, hmap] at hi2
        exact end_game_dir_isSome _ _ _ (hdir0 i hi2)
    · rw [if_neg hgo]
      dsimp only
      refine ⟨hne1, hidx1, hnd1, hsz1, hdm1, hmr1, hsc1, ?_, how1, ?_⟩
      · intro i hi2
        rw [hmap] at hi2
        exact hus0 i hi2
      · intro i hi2
        rw [hmap] at hi2
        exact hdir0 i hi2

/-- The master invariant: it holds in every reachable state. -/
theorem reachable_inv (s : ServerState) (h : Reachable s) : Inv s := by
  induction h with
  | init =>
    intro g hg
    cases hg
  | step hr hs ih =>
    cases hs with
    | create pid pname gs np land hempty hfresh => exact create_inv _ pid pname gs np land ih
    | join pid pname hfresh => exact join_inv _ pid pname hfresh ih
    | place pid px py o => exact place_inv _ pid px py o ih
    | leave pid => exact leave_inv _ pid ih
    | timeout => exact timeout_inv _ ih



theorem sum_cellContrib_nodup (ids : List String) (c : Cell) (hn : ids.Nodup) :
    (ids.map (fun pid => cellContrib pid c)).sum = seatContrib ids c := by
  induction ids with
  | nil =>
    rcases hw : c.owner with _ | o2 <;> simp [seatContrib, hw]
  | cons b t ih =>
    simp only [List.nodup_cons] at hn
    obtain ⟨hb, ht⟩ := hn
    simp only [List.map_cons, List.sum_cons, ih ht]
    rcases hw : c.owner with _ | o2
    · simp [cellContrib, seatContrib, hw]
    · by_cases hob : o2 = b
      · subst hob
        simp [cellContrib, seatContrib, hw, hb]
      · simp [cellContrib, seatContrib, hw, hob, Ne.symm hob]

theorem sum_ownedValue_eq_ownedBySeated (grid : List (List Cell)) (ids : List String)
    (hn : ids.Nodup) :
    (ids.map (ownedValue grid)).sum = ownedBySeated grid ids := by
  show (ids.map (fun pid => (grid.map (fun row => rowOwned pid row)).sum)).sum = _
  rw [sum_map_swap]
  unfold ownedBySeated
  apply congrArg List.sum
  apply List.map_congr_left
  intro row hrow
  show (ids.map (fun pid => (row.map (fun c => cellContrib pid c)).sum)).sum = _
  rw [sum_map_swap]
  apply congrArg List.sum
  apply List.map_congr_left
  intro c hc
  exact sum_cellContrib_nodup ids c hn

/-- C2, amended.  In every reachable state of a live session, the sum of
the seated players' scores equals the total point value of the cells
owned by currently seated players.  (The original claim counts all owned
cells; it fails once a player who claimed land leaves, because the
departed player's cells keep their owner while the score leaves the
roster — see the counterexample.) -/
theorem c2_amended (s : ServerState) (g : Game) (hr : Reachable s)
    (hg : s.game = some g) :
    (g.players.map Player.score).sum = ownedBySeated g.grid (g.players.map Player.id) := by
  obtain ⟨hne, hidx, hnd, hsz, hdm, hmr, hsc, hus, how, hdir⟩ := reachable_inv s hr g hg
  have h1 : g.players.map Player.score = g.players.map (fun p => ownedValue g.grid p.id) :=
    List.map_congr_left (fun p hp => hsc p hp)
  have h2 : g.players.map (fun p => ownedValue g.grid p.id) =
      (g.players.map Player.id).map (ownedValue g.grid) := by
    rw [List.map_map]
    rfl
  rw [h1, h2, sum_ownedValue_eq_ownedBySeated _ _ hnd]

/-- C2 witness: in the reachable state `sB9` (P1 has claimed cell (0,0),
both players still seated) the seated scores sum to 1 and the cells
owned by seated players also total 1. -/
theorem c2_amended_witness :
    ∃ g, sB9.game = some g ∧
      (g.players.map Player.score).sum = ownedBySeated g.grid (g.players.map Player.id) ∧
      (g.players.map Player.score).sum = 1 :=
  ⟨_, rfl, c2_amended sB9 _ reach_sB9 rfl, by decide⟩

/-- C10, confirmed.  In every reachable state with a live session the
turn pointer indexes a seated player: `current_player_index` is strictly
below the roster length, so `players[current_player_index]` is in
bounds. -/
theorem c10_index_in_range (s : ServerState) (g : Game) (hr : Reachable s)
    (hg : s.game = some g) (hpl : 0 < g.players.length) :
    g.current_player_index < g.players.length :=
  (reachable_inv s hr g hg).2.1

/-- C10 witness: the two-player session `sA3` after one move has
`current_player_index` 1 < 2. -/
theorem c10_index_in_range_witness :
    ∃ g, sA3.game = some g ∧ 0 < g.players.length ∧
      g.current_player_index < g.players.length :=
  ⟨_, rfl, by decide, c10_index_in_range sA3 _ reach_sA3 rfl (by decide)⟩

/-- C1, amended.  Enclosure detection runs only at the placed cell:
after any successful placement the placed cell itself never ends up with
four fences and no owner (if the placement enclosed it, it was claimed on
the spot).  The mirrored update can complete the neighboring cell
without an owner — see the counterexample — and `check_game_over` only
attests that every fence is set. -/
theorem c1_amended (s : ServerState) (pid : String) (px py : Option Int) (o : String)
    (g2 : Game) (xi yi : Int) (hr : Reachable s)
    (hsucc : (place_fence s pid px py o).1.status = "success")
    (hg2 : (place_fence s pid px py o).2.game = some g2)
    (hpx : px = some xi) (hpy : py = some yi) :
    check_land_enclosed g2.grid xi.toNat yi.toNat = false := by
  obtain ⟨g, xi2, yi2, hg, hpx2, hpy2, hturn, hover, hx0, hx1, hy0, hy1, ho, hf, heq⟩ :=
    place_fence_success_form s pid px py o hsucc
  rw [hpx] at hpx2
  rw [hpy] at hpy2
  have hxe : xi = xi2 := Option.some_inj.mp hpx2
  have hye : yi = yi2 := Option.some_inj.mp hpy2
  subst hxe
  subst hye
  obtain ⟨hne0, hidx0, hnd0, hsz0, hdm0, hmr0, hsc0, hus0, how0, hdir0⟩ :=
    reachable_inv s hr g hg
  rw [heq] at hg2
  dsimp only at hg2
  have hg2eq := (Option.some_inj.mp hg2).symm
  subst hg2eq
  rw [apply_fence_eq]
  have hgr : ∀ d : Dir, (end_game (fenceStep g xi.toNat yi.toNat o) d).1.grid =
      (fenceStep g xi.toNat yi.toNat o).grid :=
    fun d => (end_game_preserves (fenceStep g xi.toNat yi.toNat o) d).2.2.1
  have hdm1 : gridDims (placeFenceGrid g.grid g.grid_size xi.toNat yi.toNat o) g.grid_size :=
    gridDims_placeFenceGrid _ _ _ _ _ hdm0
  have hb1 : yi.toNat < (placeFenceGrid g.grid g.grid_size xi.toNat yi.toNat o).length := by
    rw [hdm1.1]
    omega
  have hb2 : xi.toNat < ((placeFenceGrid g.grid g.grid_size xi.toNat yi.toNat o).getD
      yi.toNat []).length := by
    rw [hdm1.2 _ (mem_of_getD _ _ _ hb1)]
    omega
  have hmain : check_land_enclosed (fenceStep g xi.toNat yi.toNat o).grid
      xi.toNat yi.toNat = false := by
    unfold fenceStep
    dsimp only
    by_cases hcl : check_land_enclosed
        (placeFenceGrid g.grid g.grid_size xi.toNat yi.toNat o) xi.toNat yi.toNat = true
    · rw [if_pos hcl]
      rw [check_land_enclosed, getCell_setCell_self _ _ _ _ hb1 hb2]
      simp
    · rw [if_neg (by simp [hcl])]
      revert hcl
      cases check_land_enclosed (placeFenceGrid g.grid g.grid_size xi.toNat yi.toNat o)
        xi.toNat yi.toNat <;> simp
  by_cases hgo : check_game_over (fenceStep g xi.toNat yi.toNat o) = true
  · rw [if_pos hgo]
    dsimp only
    rw [hgr]
    exact hmain
  · rw [if_neg hgo]
    dsimp only
    exact hmain



/-- C1 amended witness: P1's claiming move in `sB8` completes cell (0,0)
and the placed cell is immediately owned, so it is not
four-fences-without-owner. -/
theorem c1_amended_witness :
    ∃ g2, (place_fence sB8 "P1" (some 0) (some 0) "east").2.game = some g2 ∧
      check_land_enclosed g2.grid 0 0 = false :=
  ⟨_, rfl, c1_amended sB8 "P1" (some 0) (some 0) "east" _ 0 0 reach_sB8 (by decide) rfl rfl rfl⟩

theorem recordWin_other (d : Dir) (pid q : String) (h : q ≠ pid) :
    (recordWin d pid) q = d q := by
  unfold recordWin
  rcases d pid with _ | st
  · rfl
  · unfold dirSet
    dsimp only
    rw [if_neg h]

theorem recordWin_self (d : Dir) (q : String) (st : Stats) (h : d q = some st) :
    (recordWin d q) q = some { st with wins := st.wins + 1 } := by
  unfold recordWin
  rw [h]
  unfold dirSet
  dsimp only
  rw [if_pos rfl]

theorem recordLoss_self (d : Dir) (q : String) (st : Stats) (h : d q = some st) :
    (recordLoss d q) q = some { st with losses := st.losses + 1 } := by
  unfold recordLoss
  rw [h]
  unfold dirSet
  dsimp only
  rw [if_pos rfl]

/-- The win-credit fold of `handle_player_disconnect` never touches the
leaver's entry. -/
theorem disconnect_fold_leaver (l : List Player) (d : Dir) (pid : String) :
    (l.foldl (fun acc p => if p.id ≠ pid then recordWin acc p.id else acc) d) pid = d pid := by
  induction l generalizing d with
  | nil => rfl
  | cons p t ih =>
    simp only [List.foldl_cons]
    by_cases hp : p.id ≠ pid
    · rw [if_pos hp, ih, recordWin_other _ _ _ (fun he => hp he.symm)]
    · rw [if_neg hp, ih]

/-- The win-credit fold leaves keys outside the roster unchanged. -/
theorem disconnect_fold_absent (l : List Player) (d : Dir) (pid q : String)
    (hq : q ∉ l.map Player.id) :
    (l.foldl (fun acc p => if p.id ≠ pid then recordWin acc p.id else acc) d) q = d q := by
  induction l generalizing d with
  | nil => rfl
  | cons p t ih =>
    simp only [List.map_cons, List.mem_cons] at hq
    push_neg at hq
    simp only [List.foldl_cons]
    by_cases hp : p.id ≠ pid
    · rw [if_pos hp, ih _ hq.2, recordWin_other _ _ _ hq.1]
    · rw [if_neg hp, ih _ hq.2]

/-- The win-credit fold increments each non-leaving seated player's wins
exactly once. -/
theorem disconnect_fold_value (l : List Player) (d : Dir) (pid q : String) (st : Stats)
    (hnd : (l.map Player.id).Nodup) (hmem : q ∈ l.map Player.id) (hne : q ≠ pid)
    (hq : d q = some st) :
    (l.foldl (fun acc p => if p.id ≠ pid then recordWin acc p.id else acc) d) q =
      some { st with wins := st.wins + 1 } := by
  induction l generalizing d with
  | nil => simp at hmem
  | cons p t ih =>
    simp only [List.map_cons, List.nodup_cons] at hnd
    obtain ⟨hp_not, hnd_t⟩ := hnd
    simp only [List.foldl_cons]
    rcases (by simpa using hmem : q = p.id ∨ q ∈ t.map Player.id) with hq1 | hq2
    · subst hq1
      rw [if_pos (by simpa using hne)]
      rw [disconnect_fold_absent _ _ _ _ hp_not]
      exact recordWin_self _ _ _ hq
    · by_cases hp : p.id ≠ pid
      · rw [if_pos hp]
        apply ih (recordWin d p.id) hnd_t hq2
        rw [recordWin_other _ _ _ (fun he => hp_not (by rw [← he]; exact hq2))]
        exact hq
      · rw [if_neg hp]
        exact ih d hnd_t hq2 hq

theorem findPlayerIdx_mem (ps : List Player) (pid : String) (k : Nat)
    (h : findPlayerIdx ps pid = some k) : pid ∈ ps.map Player.id := by
  induction ps generalizing k with
  | nil =>
    unfold findPlayerIdx at h
    cases h
  | cons p t ih =>
    unfold findPlayerIdx at h
    by_cases hp : p.id = pid
    · simp [hp]
    · rw [if_neg hp] at h
      rcases hi : findPlayerIdx t pid with _ | k2
      · rw [hi] at h
        simp at h
      · simp only [List.map_cons, List.mem_cons]
        exact Or.inr (ih k2 hi)

/-- C4, amended.  Directory counters are updated once per departure or
game-end event rather than once per session: a leave from a session with
at least two seated players immediately adds one loss to the leaver and
one win to every remaining seated player (a later game end applies its
own further increments, so one session can update a player's tallies more
than once — see the counterexample). -/
theorem c4_amended (s : ServerState) (g : Game) (pid : String) (k : Nat)
    (hr : Reachable s) (hg : s.game = some g)
    (hfind : findPlayerIdx g.players pid = some k) (h2 : 2 ≤ g.players.length) :
    ∃ st : Stats, s.dir pid = some st ∧
      (handle_player_disconnect s pid).2.dir pid =
        some { st with losses := st.losses + 1 } ∧
      ∀ q ∈ g.players.map Player.id, q ≠ pid →
        ∃ st2 : Stats, s.dir q = some st2 ∧
          (handle_player_disconnect s pid).2.dir q =
            some { st2 with wins := st2.wins + 1 } := by
  obtain ⟨hne, hidx, hnd, hsz, hdm, hmr, hsc, hus, how, hdir⟩ := reachable_inv s hr g hg
  have hpid_mem := findPlayerIdx_mem g.players pid k hfind
  obtain ⟨st, hst⟩ := Option.isSome_iff_exists.mp (hdir pid hpid_mem)
  refine ⟨st, hst, ?_, ?_⟩
  · unfold handle_player_disconnect
    rw [hg]
    dsimp only
    rw [hfind]
    dsimp only
    rw [if_neg (by omega)]
    dsimp only
    apply recordLoss_self
    rw [disconnect_fold_leaver]
    exact hst
  · intro q hq hqne
    obtain ⟨st2, hst2⟩ := Option.isSome_iff_exists.mp (hdir q hq)
    refine ⟨st2, hst2, ?_⟩
    unfold handle_player_disconnect
    rw [hg]
    dsimp only
    rw [hfind]
    dsimp only
    rw [if_neg (by omega)]
    dsimp only
    unfold recordLoss
    rcases hdl : (g.players.foldl
        (fun acc p => if p.id ≠ pid then recordWin acc p.id else acc) s.dir) pid with _ | st3
    · rw [hdl]
      exact disconnect_fold_value _ _ _ _ _ hnd hq hqne hst2
    · rw [hdl]
      unfold dirSet
      dsimp only
      rw [if_neg hqne]
      exact disconnect_fold_value _ _ _ _ _ hnd hq hqne hst2

/-- C4 amended witness: P1 leaving the full three-player session `sC3`
adds a loss to P1 and one win each to P2 and P3. -/
theorem c4_amended_witness :
    ∃ st : Stats, sC3.dir "P1" = some st ∧
      (handle_player_disconnect sC3 "P1").2.dir "P1" =
        some { st with losses := st.losses + 1 } ∧
      ∀ q ∈ ["P1", "P2", "P3"], q ≠ "P1" →
        ∃ st2 : Stats, sC3.dir q = some st2 ∧
          (handle_player_disconnect sC3 "P1").2.dir q =
            some { st2 with wins := st2.wins + 1 } := by
  have h := c4_amended sC3 _ "P1" 0
    (Reachable.step reach_sC2 (Step.join sC2 "P3" "Carol" (by decide))) rfl (by decide) (by decide)
  obtain ⟨st, h1, h2, h3⟩ := h
  exact ⟨st, h1, h2, fun q hq hqne => h3 q hq hqne⟩



theorem getFence_owner_update (c : Cell) (o : String) (w : Option String) :
    ({ c with owner := w } : Cell).getFence o = c.getFence o := by
  unfold Cell.getFence
  split_ifs <;> rfl

theorem getFence_setFence_self (c : Cell) (o : String)
    (ho : o = "north" ∨ o = "east" ∨ o = "south" ∨ o = "west") :
    (c.setFence o).getFence o = true := by
  rcases ho with rfl | rfl | rfl | rfl <;> rfl

theorem mirrorOf_valid (o : String)
    (ho : o = "north" ∨ o = "east" ∨ o = "south" ∨ o = "west") :
    mirrorOf o = "north" ∨ mirrorOf o = "east" ∨ mirrorOf o = "south" ∨ mirrorOf o = "west" := by
  rcases ho with rfl | rfl | rfl | rfl
  · right
    right
    left
    rfl
  · right
    right
    right
    rfl
  · left
    rfl
  · right
    left
    rfl

/-- The mirrored flag of the in-grid neighbor always agrees with the
named flag of the target cell, by the shared-wall invariant. -/
theorem neighbor_flag_agrees (grid : List (List Cell)) (size x y i j : Nat) (o : String)
    (hm : mirrorOK grid size) (hx : x < size) (hy : y < size)
    (ho : o = "north" ∨ o = "east" ∨ o = "south" ∨ o = "west")
    (hn : neighborPos size x y o = some (i, j)) :
    (getCell grid i j).getFence (mirrorOf o) = (getCell grid x y).getFence o := by
  rcases ho with rfl | rfl | rfl | rfl
  · unfold neighborPos at hn
    rw [if_pos rfl] at hn
    by_cases hg : 0 < y
    · rw [if_pos hg] at hn
      obtain ⟨rfl, rfl⟩ : x = i ∧ y - 1 = j := by
        constructor <;> [exact congrArg Prod.fst (Option.some_inj.mp hn);
          exact congrArg Prod.snd (Option.some_inj.mp hn)]
      show (getCell grid x (y - 1)).south = (getCell grid x y).north
      have := hm.2 x (y - 1) hx (by omega)
      rw [this]
      have hyy : y - 1 + 1 = y := by omega
      rw [hyy]
    · rw [if_neg hg] at hn
      cases hn
  · unfold neighborPos at hn
    rw [if_neg (by decide), if_pos rfl] at hn
    by_cases hg : x < size - 1
    · rw [if_pos hg] at hn
      obtain ⟨rfl, rfl⟩ : x + 1 = i ∧ y = j := by
        constructor <;> [exact congrArg Prod.fst (Option.some_inj.mp hn);
          exact congrArg Prod.snd (Option.some_inj.mp hn)]
      show (getCell grid (x + 1) y).west = (getCell grid x y).east
      exact (hm.1 x y (by omega) hy).symm
    · rw [if_neg hg] at hn
      cases hn
  · unfold neighborPos at hn
    rw [if_neg (by decide), if_neg (by decide), if_pos rfl] at hn
    by_cases hg : y < size - 1
    · rw [if_pos hg] at hn
      obtain ⟨rfl, rfl⟩ : x = i ∧ y + 1 = j := by
        constructor <;> [exact congrArg Prod.fst (Option.some_inj.mp hn);
          exact congrArg Prod.snd (Option.some_inj.mp hn)]
      show (getCell grid x (y + 1)).north = (getCell grid x y).south
      exact (hm.2 x y hx (by omega)).symm
    · rw [if_neg hg] at hn
      cases hn
  · unfold neighborPos at hn
    rw [if_neg (by decide), if_neg (by decide), if_neg (by decide), if_pos rfl] at hn
    by_cases hg : 0 < x
    · rw [if_pos hg] at hn
      obtain ⟨rfl, rfl⟩ : x - 1 = i ∧ y = j := by
        constructor <;> [exact congrArg Prod.fst (Option.some_inj.mp hn);
          exact congrArg Prod.snd (Option.some_inj.mp hn)]
      show (getCell grid (x - 1) y).east = (getCell grid x y).west
      have := hm.1 (x - 1) y (by omega) hy
      rw [this]
      have hxx : x - 1 + 1 = x := by omega
      rw [hxx]
    · rw [if_neg hg] at hn
      cases hn

theorem neighborPos_ne_self (size x y i j : Nat) (o : String)
    (hn : neighborPos size x y o = some (i, j)) : ¬(i = x ∧ j = y) := by
  unfold neighborPos at hn
  by_cases h1 : o = "north"
  · rw [if_pos h1] at hn
    by_cases hg : 0 < y
    · rw [if_pos hg] at hn
      intro hc
      obtain ⟨rfl, rfl⟩ : x = i ∧ y - 1 = j := by
        constructor <;> [exact congrArg Prod.fst (Option.some_inj.mp hn);
          exact congrArg Prod.snd (Option.some_inj.mp hn)]
      omega
    · rw [if_neg hg] at hn
      cases hn
  · rw [if_neg h1] at hn
    by_cases h2 : o = "east"
    · rw [if_pos h2] at hn
      by_cases hg : x < size - 1
      · rw [if_pos hg] at hn
        intro hc
        obtain ⟨rfl, rfl⟩ : x + 1 = i ∧ y = j := by
          constructor <;> [exact congrArg Prod.fst (Option.some_inj.mp hn);
            exact congrArg Prod.snd (Option.some_inj.mp hn)]
        omega
      · rw [if_neg hg] at hn
        cases hn
    · rw [if_neg h2] at hn
      by_cases h3 : o = "south"
      · rw [if_pos h3] at hn
        by_cases hg : y < size - 1
        · rw [if_pos hg] at hn
          intro hc
          obtain ⟨rfl, rfl⟩ : x = i ∧ y + 1 = j := by
            constructor <;> [exact congrArg Prod.fst (Option.some_inj.mp hn);
              exact congrArg Prod.snd (Option.some_inj.mp hn)]
          omega
        · rw [if_neg hg] at hn
          cases hn
      · rw [if_neg h3] at hn
        by_cases h4 : o = "west"
        · rw [if_pos h4] at hn
          by_cases hg : 0 < x
          · rw [if_pos hg] at hn
            intro hc
            obtain ⟨rfl, rfl⟩ : x - 1 = i ∧ y = j := by
              constructor <;> [exact congrArg Prod.fst (Option.some_inj.mp hn);
                exact congrArg Prod.snd (Option.some_inj.mp hn)]
            omega
          · rw [if_neg hg] at hn
            cases hn
        · rw [if_neg h4] at hn
          cases hn



/-- C9, amended.  A successful placement sets the named flag on the
target cell (changing it) and the mirrored flag on the adjacent cell
exactly when the in-grid neighbor of the source's branch guard exists —
so exactly two cells change in the interior and exactly one on the
boundary — while every other cell is untouched.  A repeated `place_fence`
at a position whose named fence is already set never succeeds and never
changes the state: it fails with "Fence already exists" when submitted by
the current turn holder of a live game, and with another error
("Not your turn" — see the counterexample — or "Game is over")
otherwise. -/
theorem c9_amended (s : ServerState) (g : Game) (pid : String) (xi yi : Int) (o : String)
    (hr : Reachable s) (hg : s.game = some g)
    (hx0 : 0 ≤ xi) (hx1 : xi < (g.grid_size : Int)) (hy0 : 0 ≤ yi) (hy1 : yi < (g.grid_size : Int))
    (ho : o = "north" ∨ o = "east" ∨ o = "south" ∨ o = "west") :
    ((g.players.getD g.current_player_index noPlayer).id = pid → g.game_over = false →
      (getCell g.grid xi.toNat yi.toNat).getFence o = false →
      ∀ g2, (place_fence s pid (some xi) (some yi) o).2.game = some g2 →
        ((getCell g2.grid xi.toNat yi.toNat).getFence o = true ∧
          getCell g2.grid xi.toNat yi.toNat ≠ getCell g.grid xi.toNat yi.toNat) ∧
        (∀ i j, neighborPos g.grid_size xi.toNat yi.toNat o = some (i, j) →
          getCell g2.grid i j = (getCell g.grid i j).setFence (mirrorOf o) ∧
          getCell g2.grid i j ≠ getCell g.grid i j) ∧
        (∀ i j, ¬(i = xi.toNat ∧ j = yi.toNat) →
          neighborPos g.grid_size xi.toNat yi.toNat o ≠ some (i, j) →
          getCell g2.grid i j = getCell g.grid i j)) ∧
    ((getCell g.grid xi.toNat yi.toNat).getFence o = true →
      (∀ pid2, (place_fence s pid2 (some xi) (some yi) o).2 = s ∧
        (place_fence s pid2 (some xi) (some yi) o).1.status = "error") ∧
      ((g.players.getD g.current_player_index noPlayer).id = pid → g.game_over = false →
        place_fence s pid (some xi) (some yi) o = (errResp "Fence already exists", s))) := by
  obtain ⟨hne0, hidx0, hnd0, hsz0, hdm0, hmr0, hsc0, hus0, how0, hdir0⟩ :=
    reachable_inv s hr g hg
  have hx : xi.toNat < g.grid_size := by omega
  have hy : yi.toNat < g.grid_size := by omega
  constructor
  · intro hturn hover hf g2 hg2
    rw [place_fence_valid s pid xi yi o g hg hturn hover hx0 hx1 hy0 hy1 ho hf] at hg2
    dsimp only at hg2
    have hg2eq := (Option.some_inj.mp hg2).symm
    subst hg2eq
    rw [apply_fence_eq]
    obtain ⟨hA, hB, hC⟩ := placeFenceGrid_spec g.grid g.grid_size xi.toNat yi.toNat o hdm0 hx hy ho
    have hdm1 : gridDims (placeFenceGrid g.grid g.grid_size xi.toNat yi.toNat o) g.grid_size :=
      gridDims_placeFenceGrid _ _ _ _ _ hdm0
    have hb1 : yi.toNat < (placeFenceGrid g.grid g.grid_size xi.toNat yi.toNat o).length := by
      rw [hdm1.1]
      exact hy
    have hb2 : xi.toNat <
        ((placeFenceGrid g.grid g.grid_size xi.toNat yi.toNat o).getD yi.toNat []).length := by
      rw [hdm1.2 _ (mem_of_getD _ _ _ hb1)]
      exact hx
    have hgrid2 : ∀ d : Dir,
        (if check_game_over (fenceStep g xi.toNat yi.toNat o) then
          ((end_game (fenceStep g xi.toNat yi.toNat o) d).1,
            (end_game (fenceStep g xi.toNat yi.toNat o) d).2,
            check_land_enclosed (placeFenceGrid g.grid g.grid_size xi.toNat yi.toNat o)
              xi.toNat yi.toNat)
        else (fenceStep g xi.toNat yi.toNat o, d,
            check_land_enclosed (placeFenceGrid g.grid g.grid_size xi.toNat yi.toNat o)
              xi.toNat yi.toNat)).1.grid =
        (fenceStep g xi.toNat yi.toNat o).grid := by
      intro d
      split
      · exact (end_game_preserves (fenceStep g xi.toNat yi.toNat o) d).2.2.1
      · rfl
    rw [hgrid2]
    have hcell : ∀ i j, getCell (fenceStep g xi.toNat yi.toNat o).grid i j =
        (if i = xi.toNat ∧ j = yi.toNat ∧
            check_land_enclosed (placeFenceGrid g.grid g.grid_size xi.toNat yi.toNat o)
              xi.toNat yi.toNat = true then
          { getCell (placeFenceGrid g.grid g.grid_size xi.toNat yi.toNat o) xi.toNat yi.toNat with
            owner := some ((g.players.getD g.current_player_index noPlayer).id) }
        else getCell (placeFenceGrid g.grid g.grid_size xi.toNat yi.toNat o) i j) := by
      intro i j
      unfold fenceStep
      dsimp only
      by_cases hcl : check_land_enclosed (placeFenceGrid g.grid g.grid_size xi.toNat yi.toNat o)
          xi.toNat yi.toNat = true
      · rw [if_pos hcl]
        by_cases hij : i = xi.toNat ∧ j = yi.toNat
        · obtain ⟨rfl, rfl⟩ := hij
          rw [if_pos ⟨rfl, rfl, hcl⟩]
          exact getCell_setCell_self _ _ _ _ hb1 hb2
        · rw [if_neg (fun hc => hij ⟨hc.1, hc.2.1⟩)]
          exact getCell_setCell_ne _ _ _ _ _ _ hij
      · rw [if_neg (by simp [hcl])]
        rw [if_neg (fun hc => hcl hc.2.2)]
    refine ⟨?_, ?_, ?_⟩
    · constructor
      · rw [hcell]
        by_cases hcl : check_land_enclosed (placeFenceGrid g.grid g.grid_size xi.toNat yi.toNat o)
            xi.toNat yi.toNat = true
        · rw [if_pos ⟨rfl, rfl, hcl⟩, getFence_owner_update, hA]
          exact getFence_setFence_self _ _ ho
        · rw [if_neg (fun hc => hcl hc.2.2), hA]
          exact getFence_setFence_self _ _ ho
      · intro hceq
        have h1 : (getCell (fenceStep g xi.toNat yi.toNat o).grid xi.toNat yi.toNat).getFence o =
            true := by
          rw [hcell]
          by_cases hcl : check_land_enclosed
              (placeFenceGrid g.grid g.grid_size xi.toNat yi.toNat o) xi.toNat yi.toNat = true
          · rw [if_pos ⟨rfl, rfl, hcl⟩, getFence_owner_update, hA]
            exact getFence_setFence_self _ _ ho
          · rw [if_neg (fun hc => hcl hc.2.2), hA]
            exact getFence_setFence_self _ _ ho
        rw [hceq, hf] at h1
        cases h1
    · intro i j hnbr
      have hij : ¬(i = xi.toNat ∧ j = yi.toNat) := neighborPos_ne_self _ _ _ _ _ _ hnbr
      have hval : getCell (fenceStep g xi.toNat yi.toNat o).grid i j =
          (getCell g.grid i j).setFence (mirrorOf o) := by
        rw [hcell, if_neg (fun hc => hij ⟨hc.1, hc.2.1⟩)]
        exact hB i j hnbr
      refine ⟨hval, ?_⟩
      intro hceq
      have hflag : (getCell g.grid i j).getFence (mirrorOf o) = false := by
        rw [neighbor_flag_agrees g.grid g.grid_size xi.toNat yi.toNat i j o hmr0 hx hy ho hnbr]
        exact hf
      rw [hval] at hceq
      have h2 : ((getCell g.grid i j).setFence (mirrorOf o)).getFence (mirrorOf o) = true :=
        getFence_setFence_self _ _ (mirrorOf_valid o ho)
      rw [hceq, hflag] at h2
      cases h2
    · intro i j hij hnbr
      rw [hcell, if_neg (fun hc => hij ⟨hc.1, hc.2.1⟩)]
      exact hC i j hij hnbr
  · intro hset
    have herr : ∀ pid2, (place_fence s pid2 (some xi) (some yi) o).2 = s ∧
        (place_fence s pid2 (some xi) (some yi) o).1.status = "error" := by
      intro pid2
      rw [place_fence, hg]
      dsimp only
      by_cases h1 : (g.players.getD g.current_player_index noPlayer).id ≠ pid2
      · rw [if_pos h1]
        exact ⟨rfl, rfl⟩
      · rw [if_neg h1]
        by_cases h2 : g.game_over = true
        · rw [if_pos h2]
          exact ⟨rfl, rfl⟩
        · rw [if_neg h2]
          rw [if_neg (by push_neg; exact ⟨hx0, hx1, hy0, hy1⟩), if_neg (not_not_intro ho),
            if_pos hset]
          exact ⟨rfl, rfl⟩
    refine ⟨herr, ?_⟩
    intro hturn hover
    rw [place_fence, hg]
    dsimp only
    rw [if_neg (not_not_intro hturn), if_neg (by simp [hover])]
    rw [if_neg (by push_neg; exact ⟨hx0, hx1, hy0, hy1⟩), if_neg (not_not_intro ho),
      if_pos hset]

/-- C9 amended witness: in `sA3` the north fence of (0,0) is already set;
any resubmission of that placement fails without changing the state, and
the current turn holder P2 receives exactly "Fence already exists". -/
theorem c9_amended_witness :
    ∃ g, sA3.game = some g ∧
      (((g.players.getD g.current_player_index noPlayer).id = "P2" → g.game_over = false →
        (getCell g.grid (0 : Int).toNat (0 : Int).toNat).getFence "north" = false →
        ∀ g2, (place_fence sA3 "P2" (some 0) (some 0) "north").2.game = some g2 →
          ((getCell g2.grid (0 : Int).toNat (0 : Int).toNat).getFence "north" = true ∧
            getCell g2.grid (0 : Int).toNat (0 : Int).toNat ≠
              getCell g.grid (0 : Int).toNat (0 : Int).toNat) ∧
          (∀ i j, neighborPos g.grid_size (0 : Int).toNat (0 : Int).toNat "north" = some (i, j) →
            getCell g2.grid i j = (getCell g.grid i j).setFence (mirrorOf "north") ∧
            getCell g2.grid i j ≠ getCell g.grid i j) ∧
          (∀ i j, ¬(i = (0 : Int).toNat ∧ j = (0 : Int).toNat) →
            neighborPos g.grid_size (0 : Int).toNat (0 : Int).toNat "north" ≠ some (i, j) →
            getCell g2.grid i j = getCell g.grid i j)) ∧
      ((getCell g.grid (0 : Int).toNat (0 : Int).toNat).getFence "north" = true →
        (∀ pid2, (place_fence sA3 pid2 (some 0) (some 0) "north").2 = sA3 ∧
          (place_fence sA3 pid2 (some 0) (some 0) "north").1.status = "error") ∧
        ((g.players.getD g.current_player_index noPlayer).id = "P2" → g.game_over = false →
          place_fence sA3 "P2" (some 0) (some 0) "north" =
            (errResp "Fence already exists", sA3)))) :=
  ⟨_, rfl, c9_amended sA3 _ "P2" 0 0 "north" reach_sA3 rfl (by decide) (by decide) (by decide)
    (by decide) (Or.inl rfl)⟩

end Prospector
